import Mathlib

/-!
# Verification of the media-generation executors of `open-agent-builder`

Shallow embedding of the claim-relevant parts of the repository:

* `src/lib/workflow/executors/image-gen.ts` — the image-generation executor
  (`extractPromptsFromMarkdown`, `extractPrompts`, `executeImageGenNode`);
* the video-generation executor (`src/unnamed/part_002`, with the structurally
  identical Runway variant in `src/unnamed/part_003`) —
  (`extractVideoPrompts`, `extractPromptsFromMarkdown`, `generateSingleClip`,
  `stitchClipsWithFFmpeg`, `executeVideoGenNode`).

JavaScript untyped values are modelled by the inductive type `JSVal`
(with both `null` and `undefined`); numbers are modelled by `ℚ`
(every numeric constant appearing in the claims is exactly representable,
and `toFixed` rounding is reproduced on `ℚ`); a property access on
`null`/`undefined` is an exception, modelled with `Except String`.
Ambient nondeterminism (provider responses, `Date.now()` timestamps,
elapsed times, `process.cwd()`, the FFmpeg outcome) is supplied through
explicit environment records, and the executors additionally return the
ordered list of externally visible events (provider calls and `setTimeout`
sleeps) so that pacing/backoff claims can be stated.
-/

/-! ## Character-list string utilities (JS `includes`, regex scan, `trim`, `toLowerCase`) -/

/-- Whether `pat` is an initial segment of the second list: `startsWithL pat l` is true iff `pat` is an initial segment of `l`. -/
def startsWithL : List Char → List Char → Bool
  | [], _ => true
  | _ :: _, [] => false
  | p :: ps, c :: cs => p == c && startsWithL ps cs

/-- Index of the first occurrence of `pat` in the text, if any. -/
def findSubIdx (pat : List Char) : List Char → Option Nat
  | [] => if startsWithL pat [] then some 0 else none
  | c :: rest =>
    if startsWithL pat (c :: rest) then some 0
    else (findSubIdx pat rest).map (· + 1)

/-- Occurrence test `hasSubL pat l`: does `pat` occur in `l`?  (JS `String.prototype.includes`.) -/
def hasSubL (pat : List Char) : List Char → Bool
  | [] => startsWithL pat []
  | c :: rest => startsWithL pat (c :: rest) || hasSubL pat rest

/-- JS `text.includes(pat)`. -/
def hasSubS (text pat : String) : Bool := hasSubL pat.data text.data

/-- The whitespace characters relevant to JS `String.prototype.trim` here. -/
def isWsp (c : Char) : Bool := c == ' ' || c == '\n' || c == '\t' || c == '\r'

/-- JS `String.prototype.trim` on character lists. -/
def trimL (l : List Char) : List Char :=
  ((l.dropWhile isWsp).reverse.dropWhile isWsp).reverse

/-- JS `String.prototype.toLowerCase` (ASCII, which is all the sources use). -/
def lowerL (l : List Char) : List Char := l.map Char.toLower

/-! ## JS numbers: `toFixed` rounding on `ℚ` -/

/-- Rounding to the nearest integer, ties away from zero on the positive side
(the tie rule of ECMA `toFixed`: among the two closest candidates pick the
larger).  Only used on nonnegative quantities (costs). -/
def roundHalfUp (q : ℚ) : ℤ := ⌊q + 1 / 2⌋

/-- The exact rational value represented by `q.toFixed(d)`. -/
def rnd (d : Nat) (q : ℚ) : ℚ := (roundHalfUp (q * (10 : ℚ) ^ d) : ℚ) / (10 : ℚ) ^ d

/-- Left-pad a numeral with zeros to the requested width. -/
def padZeros (s : String) (n : Nat) : String :=
  if s.length < n then String.mk (List.replicate (n - s.length) '0') ++ s else s

/-- JS `q.toFixed(d)` for a nonnegative number `q`. -/
def toFixed (d : Nat) (q : ℚ) : String :=
  let n : ℤ := roundHalfUp (q * (10 : ℚ) ^ d)
  toString (n / ((10 : ℤ) ^ d)) ++ "." ++ padZeros (toString (n % ((10 : ℤ) ^ d)).toNat) d

/-- Decimal rendering of a JS number used in template literals; integers render
as in JS, and no claim depends on the rendering of non-integers. -/
def ratToString (q : ℚ) : String :=
  if q.den = 1 then toString q.num else toString q.num ++ "/" ++ toString q.den

/-- JS `path.join(cwd, rest)` for the uses in the executors. -/
def pathJoin (cwd rest : String) : String :=
  if cwd = "" then rest else cwd ++ "/" ++ rest

/-! ## Untyped JS values -/

/-- An untyped JavaScript value as the normalizers receive it. -/
inductive JSVal where
  | vNull
  | vUndefined
  | vBool (b : Bool)
  | vNum (q : ℚ)
  | vStr (s : String)
  | vArr (elems : List JSVal)
  | vObj (fields : List (String × JSVal))

/-- JS truthiness. -/
def truthy : JSVal → Bool
  | .vNull => false
  | .vUndefined => false
  | .vBool b => b
  | .vNum q => !(q == 0)
  | .vStr s => !(s == "")
  | .vArr _ => true
  | .vObj _ => true

/-- Values on which a property access throws a `TypeError`. -/
def JSVal.isNullish : JSVal → Bool
  | .vNull => true
  | .vUndefined => true
  | _ => false

/-- JS `typeof v === 'object'` (true for objects, arrays and `null`). -/
def isObjectTypeof : JSVal → Bool
  | .vObj _ => true
  | .vArr _ => true
  | .vNull => true
  | _ => false

/-- First binding of a key in an object's field list (insertion order). -/
def lookupField : List (String × JSVal) → String → Option JSVal
  | [], _ => none
  | (k, v) :: rest, key => if k = key then some v else lookupField rest key

/-- JS property access `v[k]`: throws on `null`/`undefined`, yields `undefined`
for a missing key and for the (un-modelled) properties of primitives/arrays. -/
def getFieldE : JSVal → String → Except String JSVal
  | .vNull, _ => .error "TypeError: Cannot read properties of null"
  | .vUndefined, _ => .error "TypeError: Cannot read properties of undefined"
  | .vObj fields, k => .ok ((lookupField fields k).getD .vUndefined)
  | _, _ => .ok .vUndefined

/-- Total property access, used only where the receiver is a proper object. -/
def getFieldD (v : JSVal) (k : String) : JSVal :=
  match v with
  | .vObj fields => (lookupField fields k).getD .vUndefined
  | _ => .vUndefined

/-- The JS `in` operator: valid on objects and arrays, `TypeError` otherwise
(in particular on `null`, which has `typeof 'object'`). -/
def inOpE (k : String) : JSVal → Except String Bool
  | .vObj fields => .ok (lookupField fields k).isSome
  | .vArr _ => .ok false
  | _ => .error "TypeError: Cannot use in operator"

/-- JS `a || b`. -/
def jsOr (a b : JSVal) : JSVal := if truthy a then a else b

mutual

/-- JS `String(v)` / `v.toString()` (the receiver is non-nullish at every
call site in the model). -/
def jsToString : JSVal → String
  | .vNull => "null"
  | .vUndefined => "undefined"
  | .vBool b => cond b "true" "false"
  | .vNum q => ratToString q
  | .vStr s => s
  | .vArr xs => jsArrToString xs
  | .vObj _ => "[object Object]"

/-- JS `Array.prototype.toString` = `join(',')`. -/
def jsArrToString : List JSVal → String
  | [] => ""
  | [x] => jsElemToString x
  | x :: y :: xs => jsElemToString x ++ "," ++ jsArrToString (y :: xs)

/-- Elements of a joined array: `null`/`undefined` render as the empty string. -/
def jsElemToString : JSVal → String
  | .vNull => ""
  | .vUndefined => ""
  | v => jsToString v

end

/-! ## Markdown fenced-block extraction

The source (`image-gen.ts` lines 91–122, and the identical video variant)
scans with the global regex `/```\n([\s\S]*?)\n```/g`: a match opens at a
literal backtick fence immediately followed by a newline, its content is the
shortest span up to a newline immediately followed by a fence, and scanning
resumes after the closing fence; where no close exists the engine advances
one position. -/

/-- The opening pattern of the regex: three backticks then a newline. -/
def fenceOpenL : List Char := "```\n".data

/-- The closing pattern of the regex: a newline then three backticks. -/
def fenceCloseL : List Char := "\n```".data

/-- The regex scan, structurally recursive on a fuel bound.  Every step
either consumes one character of the text or a whole match (which is longer),
so fuel `l.length` never runs out. -/
def extractBlocksGo : Nat → List Char → List (List Char)
  | 0, _ => []
  | _, [] => []
  | fuel + 1, c :: rest =>
    if startsWithL fenceOpenL (c :: rest) then
      match findSubIdx fenceCloseL (rest.drop 3) with
      | some k => (rest.drop 3).take k :: extractBlocksGo fuel ((rest.drop 3).drop (k + 4))
      | none => extractBlocksGo fuel rest
    else extractBlocksGo fuel rest

/-- The raw `match[1]` contents of all regex matches, in source order. -/
def extractBlocksL (l : List Char) : List (List Char) := extractBlocksGo l.length l

/-- The filter applied to a trimmed block: kept unless it contains
(case-insensitively) `"negative prompt:"` or `"technical specifications"`,
or its length is under 50. -/
def keepBlock (c : List Char) : Bool :=
  !(hasSubL "negative prompt:".data (lowerL c)) &&
  !(hasSubL "technical specifications".data (lowerL c)) &&
  decide (50 ≤ c.length)

/-- One unit of normalized generation work, with untyped fields exactly as the
normalizers produce them (`style` is only set by the image normalizer,
`sourceImage` only by the video one; `vUndefined` marks an absent field). -/
structure WorkItem where
  shotNumber : JSVal
  prompt : JSVal
  sourceImage : JSVal
  aspectRatio : JSVal
  style : JSVal

/-- A kept markdown block of the image extractor (aspect `4:3`, style
`cinematic`). -/
def mdImageItem (k : Nat) (p : String) : WorkItem :=
  ⟨.vNum (k : ℚ), .vStr p, .vUndefined, .vStr "4:3", .vStr "cinematic"⟩

/-- A kept markdown block of the video extractor (aspect `16:9`, no style). -/
def mdVideoItem (k : Nat) (p : String) : WorkItem :=
  ⟨.vNum (k : ℚ), .vStr p, .vUndefined, .vStr "16:9", .vUndefined⟩

/-- Trim each raw block, drop the filtered ones, and number the kept ones with
the running counter `k` (the source increments `shotNumber` only on a push). -/
def numberBlocks (mkIt : Nat → String → WorkItem) : List (List Char) → Nat → List WorkItem
  | [], _ => []
  | b :: bs, k =>
    let c := trimL b
    if keepBlock c then mkIt k (String.mk c) :: numberBlocks mkIt bs (k + 1)
    else numberBlocks mkIt bs k

/-- Source function `extractPromptsFromMarkdown` of `image-gen.ts` (lines 91–122). -/
def extractPromptsFromMarkdown (text : String) : List WorkItem :=
  numberBlocks mdImageItem (extractBlocksL text.data) 1

/-- Source function `extractPromptsFromMarkdown` of the video executor (identical scan and
filter; `16:9`, no style). -/
def extractPromptsFromMarkdownVideo (text : String) : List WorkItem :=
  numberBlocks mdVideoItem (extractBlocksL text.data) 1

/-! ## Output normalizers

`extractPrompts` (`image-gen.ts` lines 127–211) and `extractVideoPrompts`
(video executor lines 610–710).  Both are modelled as `Except`-valued
functions: the JS code can throw a `TypeError` when it dereferences a
`null`/`undefined` element of an input array. -/

/-- Index-carrying effectful map (`Array.prototype.map` under `Except`). -/
def mapIdxE (f : Nat → JSVal → Except String WorkItem) :
    List JSVal → Nat → Except String (List WorkItem)
  | [], _ => .ok []
  | x :: xs, i => do
    let w ← f i x
    let ws ← mapIdxE f xs (i + 1)
    .ok (w :: ws)

/-- Image normalizer, case 1 (plain array element):
`{shotNumber: item.shotNumber || index+1, prompt: item.prompt || item.toString(),
aspectRatio: item.aspectRatio || '4:3', style: item.style || 'cinematic'}`. -/
def imgArrayItem (i : Nat) (item : JSVal) : Except String WorkItem := do
  let sn ← getFieldE item "shotNumber"
  let pr ← getFieldE item "prompt"
  let prompt := if truthy pr then pr else JSVal.vStr (jsToString item)
  let ar ← getFieldE item "aspectRatio"
  let st ← getFieldE item "style"
  .ok ⟨jsOr sn (.vNum ((i : ℚ) + 1)), prompt, .vUndefined,
       jsOr ar (.vStr "4:3"), jsOr st (.vStr "cinematic")⟩

/-- Image normalizer, cases 2 and 3 (`imagePrompts` entries and scanned
prompt arrays): prompt is `item.prompt` with no stringify fallback. -/
def imgPromptItem (i : Nat) (item : JSVal) : Except String WorkItem := do
  let sn ← getFieldE item "shotNumber"
  let pr ← getFieldE item "prompt"
  let ar ← getFieldE item "aspectRatio"
  let st ← getFieldE item "style"
  .ok ⟨jsOr sn (.vNum ((i : ℚ) + 1)), pr, .vUndefined,
       jsOr ar (.vStr "4:3"), jsOr st (.vStr "cinematic")⟩

/-- Case-3 scan over `Object.keys` in enumeration order: the first array-valued
property that is non-empty and whose first element has `typeof 'object'` and a
`prompt` key (the `in` test throws when that first element is `null`). -/
def scanProps (f : Nat → JSVal → Except String WorkItem) :
    List (String × JSVal) → Except String (Option (List WorkItem))
  | [] => .ok none
  | (_, .vArr (x :: xs)) :: rest =>
    if isObjectTypeof x then do
      let b ← inOpE "prompt" x
      if b then do
        let ws ← mapIdxE f (x :: xs) 0
        .ok (some ws)
      else scanProps f rest
    else scanProps f rest
  | _ :: rest => scanProps f rest

/-- The single-prompt-object case of the image normalizer. -/
def imgSingleItem (fields : List (String × JSVal)) : WorkItem :=
  ⟨jsOr (getFieldD (.vObj fields) "shotNumber") (.vNum 1),
   getFieldD (.vObj fields) "prompt", .vUndefined,
   jsOr (getFieldD (.vObj fields) "aspectRatio") (.vStr "4:3"),
   jsOr (getFieldD (.vObj fields) "style") (.vStr "cinematic")⟩

/-- The final fallback of the image normalizer (lines 204–210). -/
def defaultImageItem : WorkItem :=
  ⟨.vNum 1, .vStr "cinematic photo, professional lighting, 4:3 aspect ratio",
   .vUndefined, .vStr "4:3", .vStr "cinematic"⟩

/-- The whole-string fallback of the image normalizer (lines 196–201). -/
def stringImageItem (s : String) : WorkItem :=
  ⟨.vNum 1, .vStr s, .vUndefined, .vStr "4:3", .vStr "cinematic"⟩

/-- Source function `extractPrompts` of `image-gen.ts` (lines 127–211).  An array input goes
through case 1 (arrays also satisfy `typeof 'object'`, but case 1 fires
first); a non-null non-array object goes through cases 2–3; a string through
case 4; everything else gets the default item. -/
def extractPrompts (lastOutput : JSVal) : Except String (List WorkItem) :=
  match lastOutput with
  | .vArr items => mapIdxE imgArrayItem items 0
  | .vObj fields =>
    match lookupField fields "imagePrompts" with
    | some (.vArr items) => mapIdxE imgPromptItem items 0
    | _ => do
      let hit ← scanProps imgPromptItem fields
      match hit with
      | some ws => .ok ws
      | none =>
        match lookupField fields "prompt" with
        | some _ => .ok [imgSingleItem fields]
        | none => .ok [defaultImageItem]
  | .vStr s =>
    if hasSubS s "```" then
      let md := extractPromptsFromMarkdown s
      if md.isEmpty then .ok [stringImageItem s] else .ok md
    else .ok [stringImageItem s]
  | _ => .ok [defaultImageItem]

/-- Video normalizer, case 1 filter: `img.success && img.localPath`
(`Array.prototype.filter`, with the short-circuit of `&&`). -/
def filterImagesE : List JSVal → Except String (List JSVal)
  | [] => .ok []
  | img :: rest => do
    let s ← getFieldE img "success"
    let keep ←
      if truthy s then do
        let lp ← getFieldE img "localPath"
        pure (truthy lp)
      else pure false
    let tail ← filterImagesE rest
    .ok (if keep then img :: tail else tail)

/-- Video normalizer, case 1 map over the kept `images` entries. -/
def vidImagesEntry (i : Nat) (img : JSVal) : Except String WorkItem := do
  let sn ← getFieldE img "shotNumber"
  let op ← getFieldE img "originalPrompt"
  let prompt := jsOr op (.vStr ("Shot " ++ toString (i + 1)))
  let lp ← getFieldE img "localPath"
  let ar ← getFieldE img "aspectRatio"
  .ok ⟨jsOr sn (.vNum ((i : ℚ) + 1)), prompt, lp, jsOr ar (.vStr "16:9"), .vUndefined⟩

/-- Video normalizer, case 2 (plain array element):
source image is `item.sourceImage || item.localPath || item.image`. -/
def vidArrayItem (i : Nat) (item : JSVal) : Except String WorkItem := do
  let sn ← getFieldE item "shotNumber"
  let pr ← getFieldE item "prompt"
  let prompt := if truthy pr then pr else JSVal.vStr (jsToString item)
  let si ← getFieldE item "sourceImage"
  let lp ← getFieldE item "localPath"
  let im ← getFieldE item "image"
  let ar ← getFieldE item "aspectRatio"
  .ok ⟨jsOr sn (.vNum ((i : ℚ) + 1)), prompt, jsOr si (jsOr lp im),
       jsOr ar (.vStr "16:9"), .vUndefined⟩

/-- Video normalizer, case 3 (`imagePrompts` entry): source image is
`item.sourceImage || item.image`. -/
def vidImagePromptsItem (i : Nat) (item : JSVal) : Except String WorkItem := do
  let sn ← getFieldE item "shotNumber"
  let pr ← getFieldE item "prompt"
  let si ← getFieldE item "sourceImage"
  let im ← getFieldE item "image"
  let ar ← getFieldE item "aspectRatio"
  .ok ⟨jsOr sn (.vNum ((i : ℚ) + 1)), pr, jsOr si im, jsOr ar (.vStr "16:9"), .vUndefined⟩

/-- Video normalizer, case 4 scan entry: source image is
`item.sourceImage || item.localPath || item.image`. -/
def vidScanItem (i : Nat) (item : JSVal) : Except String WorkItem := do
  let sn ← getFieldE item "shotNumber"
  let pr ← getFieldE item "prompt"
  let si ← getFieldE item "sourceImage"
  let lp ← getFieldE item "localPath"
  let im ← getFieldE item "image"
  let ar ← getFieldE item "aspectRatio"
  .ok ⟨jsOr sn (.vNum ((i : ℚ) + 1)), pr, jsOr si (jsOr lp im),
       jsOr ar (.vStr "16:9"), .vUndefined⟩

/-- The single-prompt-object case of the video normalizer. -/
def vidSingleItem (fields : List (String × JSVal)) : WorkItem :=
  ⟨jsOr (getFieldD (.vObj fields) "shotNumber") (.vNum 1),
   getFieldD (.vObj fields) "prompt",
   jsOr (getFieldD (.vObj fields) "sourceImage") (getFieldD (.vObj fields) "image"),
   jsOr (getFieldD (.vObj fields) "aspectRatio") (.vStr "16:9"), .vUndefined⟩

/-- The final fallback of the video normalizer (lines 705–709). -/
def defaultVideoItem : WorkItem :=
  ⟨.vNum 1, .vStr "cinematic establishing shot, professional lighting",
   .vUndefined, .vStr "16:9", .vUndefined⟩

/-- The whole-string fallback of the video normalizer (lines 697–701). -/
def stringVideoItem (s : String) : WorkItem :=
  ⟨.vNum 1, .vStr s, .vUndefined, .vStr "16:9", .vUndefined⟩

/-- Source function `extractVideoPrompts` (video executor lines 610–710).  Case 1 (`images`
array) is tried first; it can only fire for a proper object, since an array's
`images` property is `undefined`, so a raw array falls to case 2. -/
def extractVideoPrompts (lastOutput : JSVal) : Except String (List WorkItem) :=
  match lastOutput with
  | .vObj fields =>
    match lookupField fields "images" with
    | some (.vArr imgs) => do
      let kept ← filterImagesE imgs
      mapIdxE vidImagesEntry kept 0
    | _ =>
      match lookupField fields "imagePrompts" with
      | some (.vArr items) => mapIdxE vidImagePromptsItem items 0
      | _ => do
        let hit ← scanProps vidScanItem fields
        match hit with
        | some ws => .ok ws
        | none =>
          match lookupField fields "prompt" with
          | some _ => .ok [vidSingleItem fields]
          | none => .ok [defaultVideoItem]
  | .vArr items => mapIdxE vidArrayItem items 0
  | .vStr s =>
    if hasSubS s "```" then
      let md := extractPromptsFromMarkdownVideo s
      if md.isEmpty then .ok [stringVideoItem s] else .ok md
    else .ok [stringVideoItem s]
  | _ => .ok [defaultVideoItem]

/-! ## Image-generation executor

`executeImageGenNode` (`image-gen.ts` lines 230–412).  The executor is
modelled over the declared item type of the normalizer's result
(`Array<{shotNumber?: number; prompt: string; aspectRatio?: string;
style?: string}>`, extended with the video executor's `sourceImage?: string`),
taking the already-extracted prompt list as input; prompt extraction itself is
`extractPrompts` above.  The provider (`replicate.run` + the stream download
and file write), `Date.now()`, the elapsed-seconds strings and
`process.cwd()` are environment parameters.  The 4000-character prompt
truncation (line 313) only affects the provider payload, which the model
abstracts, and is therefore not modelled. -/

/-- A work item at the executor's declared input type. -/
structure GenItem where
  shotNumber : Option ℚ
  prompt : String
  sourceImage : Option String
  aspectRatio : Option String
  style : Option String
deriving DecidableEq

/-- JS `x || d` for an optional number (`0` is falsy). -/
def orNum (o : Option ℚ) (d : ℚ) : ℚ :=
  match o with
  | none => d
  | some x => if x = 0 then d else x

/-- JS `x || d` for an optional string (`''` is falsy). -/
def orStr (o : Option String) (d : String) : String :=
  match o with
  | none => d
  | some s => if s = "" then d else s

/-- The static Flux model registry (`FLUX_MODELS`, lines 12–31). -/
inductive FluxModel where
  | fluxDev
  | fluxPro11
  | fluxSchnell
deriving DecidableEq

/-- Registry field `costPerImage`. -/
def costPerImage : FluxModel → ℚ
  | .fluxDev => 0.025
  | .fluxPro11 => 0.04
  | .fluxSchnell => 0.003

/-- Registry field `replicateId`. -/
def replicateId : FluxModel → String
  | .fluxDev => "black-forest-labs/flux-dev"
  | .fluxPro11 => "black-forest-labs/flux-1.1-pro"
  | .fluxSchnell => "black-forest-labs/flux-schnell"

/-- The registry key, reported as `model` in the batch output. -/
def fluxKeyName : FluxModel → String
  | .fluxDev => "flux-dev"
  | .fluxPro11 => "flux-1.1-pro"
  | .fluxSchnell => "flux-schnell"

/-- Ambient nondeterminism of one image batch run: per-index provider outcome
(`.error msg` models a rejected `replicate.run`/download with that
`error.message`), per-index `Date.now()` stamp and elapsed-seconds string,
and `process.cwd()`. -/
structure ImageEnv where
  provider : Nat → Except String Unit
  stamp : Nat → Nat
  elapsed : Nat → String
  cwd : String

/-- An externally visible step of a batch run: a provider call for item `i`,
or a `setTimeout` sleep of `ms` milliseconds. -/
inductive Event where
  | call (i : Nat)
  | sleep (ms : Nat)
deriving DecidableEq

/-- One record of `ImageGenOutput.images` (interface `ImageResult`). -/
structure ImageResult where
  shotNumber : Option ℚ
  url : String
  localPath : String
  originalPrompt : String
  aspectRatio : String
  style : Option String
  model : String
  duration : String
  estimatedCost : String
  success : Bool
  error : Option String
deriving DecidableEq

/-- Filename `shot-S-T.png` from `shot-S{shotNumber || i + 1}-S{timestamp}` (line 331). -/
def imageFilename (env : ImageEnv) (i : Nat) (item : GenItem) : String :=
  "shot-" ++ ratToString (orNum item.shotNumber ((i : ℚ) + 1)) ++ "-" ++
    toString (env.stamp i) ++ ".png"

/-- The result record pushed for item `i`: the success record of lines
340–351 when the provider resolves, the failure record of lines 366–378
(raw `error.message`, empty url/path, `$0.0000`) when it rejects. -/
def imageItemResult (mk : FluxModel) (env : ImageEnv) (i : Nat) (item : GenItem) :
    ImageResult :=
  match env.provider i with
  | .ok _ =>
    let fname := imageFilename env i item
    { shotNumber := item.shotNumber
      url := "/generated-images/" ++ fname
      localPath := pathJoin env.cwd ("public/generated-images/" ++ fname)
      originalPrompt := item.prompt
      aspectRatio := orStr item.aspectRatio "4:3"
      style := item.style
      model := replicateId mk
      duration := env.elapsed i ++ "s"
      estimatedCost := "$" ++ toFixed 4 (costPerImage mk)
      success := true
      error := none }
  | .error msg =>
    { shotNumber := item.shotNumber
      url := ""
      localPath := ""
      originalPrompt := item.prompt
      aspectRatio := orStr item.aspectRatio "4:3"
      style := item.style
      model := replicateId mk
      duration := "0s"
      estimatedCost := "$0.0000"
      success := false
      error := some msg }

/-- The events of item `i`: the provider call, then — on success — the fixed
1 s pacing sleep when another item follows (lines 359–361, inside the `try`,
so skipped on failure), and — on failure — a 10 s cool-down exactly when the
raw message contains the case-sensitive substring `'rate limit'`
(lines 383–386). -/
def imageItemEvents (env : ImageEnv) (i : Nat) (notLast : Bool) : List Event :=
  match env.provider i with
  | .ok _ => Event.call i :: (if notLast then [Event.sleep 1000] else [])
  | .error msg =>
    Event.call i :: (if hasSubS msg "rate limit" then [Event.sleep 10000] else [])

/-- The sequential generation loop (lines 304–388), with the running
success/failure counters.  (The counters are accumulated from the tail,
which agrees with the source's forward-incremented `successCount` /
`failCount`.) -/
def runImageItems (mk : FluxModel) (env : ImageEnv) (n : Nat) :
    List GenItem → Nat → List ImageResult × Nat × Nat × List Event
  | [], _ => ([], 0, 0, [])
  | item :: rest, i =>
    let tail := runImageItems mk env n rest (i + 1)
    ((imageItemResult mk env i item) :: tail.1,
     (if (imageItemResult mk env i item).success then tail.2.1 + 1 else tail.2.1),
     (if (imageItemResult mk env i item).success then tail.2.2.1 else tail.2.2.1 + 1),
     imageItemEvents env i (decide (i + 1 < n)) ++ tail.2.2.2)

/-- The returned batch outcome (interface `ImageGenOutput`). -/
structure ImageGenOutput where
  images : List ImageResult
  totalGenerated : Nat
  totalFailed : Nat
  totalRequested : Nat
  estimatedTotalCost : String
  provider : String
  model : String
  modelId : String
  savedToPublic : Bool
  publicPath : String
deriving DecidableEq

/-- Source function `executeImageGenNode` (lines 230–412) on an already-normalized prompt
list: cap the batch at `MAX_IMAGES = 20` (the overflow is only
`console.warn`-logged), run the loop, and assemble the output record
(`totalRequested` is `promptsToGenerate.length`, i.e. the *capped* count;
`estimatedTotalCost` is `(successCount * costPerImage).toFixed(4)`). -/
def executeImageGenNode (mk : FluxModel) (items : List GenItem) (env : ImageEnv) :
    ImageGenOutput × List Event :=
  let toGen := items.take 20
  let run := runImageItems mk env toGen.length toGen 0
  ({ images := run.1
     totalGenerated := run.2.1
     totalFailed := run.2.2.1
     totalRequested := toGen.length
     estimatedTotalCost := "$" ++ toFixed 4 ((run.2.1 : ℚ) * costPerImage mk)
     provider := "replicate"
     model := fluxKeyName mk
     modelId := replicateId mk
     savedToPublic := true
     publicPath := "/generated-images/" }, run.2.2.2)

/-! ## Video-generation executor

`executeVideoGenNode` (`src/unnamed/part_002` lines 997–1182; the Runway
variant in `src/unnamed/part_003` lines 506–657 is structurally identical in
everything a claim touches, with the per-second cost fixed at the
`gen3a_turbo` value `0.05`).  As for images, the executor is modelled on the
already-normalized prompt list (lines 1064–1181).  `generateSingleClip`
(lines 764–903) wraps its whole body in `try`/`catch` and returns a failed
`VideoClipResult` on any provider error; with `prompt` a string (its declared
type), nothing before its `try` can throw, so the awaited call never rejects
— its `Except` result type mirrors the promise, and only `.ok` is produced.
The executor's own `catch` (lines 1116–1140), including the 30 s rate-limit
back-off, is translated below in `runVideoItems` nonetheless. -/

/-- The video model registry: `gen3a_turbo` (0.05 $/s) and `minimax`
(0.025 $/s), lines 871 and 1078. -/
inductive VideoModel where
  | gen3aTurbo
  | minimax
deriving DecidableEq

/-- Cost per second of generated video. -/
def costPerSecondOf : VideoModel → ℚ
  | .gen3aTurbo => 0.05
  | .minimax => 0.025

/-- The model name string recorded in clip results. -/
def videoModelName : VideoModel → String
  | .gen3aTurbo => "gen3a_turbo"
  | .minimax => "minimax"

/-- Configuration `node.data.videoGenConfig` (the fields a claim can observe). -/
structure VideoConfig where
  model : Option VideoModel := none
  duration : Option ℚ := none
  ratio : Option String := none

/-- Ambient nondeterminism of one video batch run: per-index provider
outcome (`.ok url` / `.error message`), per-index `Date.now()` stamp and
generation-time string, the FFmpeg concat outcome, the stitch timestamp and
`process.cwd()`. -/
structure VideoEnv where
  provider : Nat → Except String String
  stamp : Nat → Nat
  genTime : Nat → String
  ffmpeg : Except String Unit
  stitchStamp : Nat
  cwd : String

/-- One record of `VideoGenOutput.clips` (interface `VideoClipResult`). -/
structure VideoClipResult where
  shotNumber : Option ℚ
  url : String
  localPath : String
  originalPrompt : String
  sourceImage : Option String
  duration : ℚ
  model : String
  generationTime : String
  estimatedCost : String
  success : Bool
  error : Option String
deriving DecidableEq

/-- Filename `clip-S-T.mp4` from `clip-S{options.shotNumber || 1}-S{timestamp}` (line 862). -/
def videoFilename (env : VideoEnv) (i : Nat) (item : GenItem) : String :=
  "clip-" ++ ratToString (orNum item.shotNumber 1) ++ "-" ++
    toString (env.stamp i) ++ ".mp4"

/-- The clip record produced by `generateSingleClip`'s internal
`try`/`catch`: on provider success the record of lines 874–885 (public url,
joined local path, the resolved duration,
`(duration * costPerSecond).toFixed(2)`); on a caught provider error the
record of lines 889–901 (empty url/path, duration 0, `'$0.00'`, raw
message). -/
def videoItemClip (vm : VideoModel) (dur : ℚ) (env : VideoEnv) (i : Nat)
    (item : GenItem) : VideoClipResult :=
  match env.provider i with
  | .ok _url =>
    let fname := videoFilename env i item
    { shotNumber := item.shotNumber
      url := "/generated-videos/" ++ fname
      localPath := pathJoin env.cwd ("public/generated-videos/" ++ fname)
      originalPrompt := item.prompt
      sourceImage := item.sourceImage
      duration := dur
      model := videoModelName vm
      generationTime := env.genTime i ++ "s"
      estimatedCost := "$" ++ toFixed 2 (dur * costPerSecondOf vm)
      success := true
      error := none }
  | .error msg =>
    { shotNumber := item.shotNumber
      url := ""
      localPath := ""
      originalPrompt := item.prompt
      sourceImage := item.sourceImage
      duration := 0
      model := videoModelName vm
      generationTime := "0s"
      estimatedCost := "$0.00"
      success := false
      error := some msg }

/-- Source function `generateSingleClip` (lines 764–903) as awaited by the executor: its
whole body is wrapped in `try`/`catch` and returns `videoItemClip`, so the
promise always resolves (`.ok`) — see the section comment. -/
def generateSingleClipE (vm : VideoModel) (dur : ℚ) (env : VideoEnv) (i : Nat)
    (item : GenItem) : Except String VideoClipResult :=
  .ok (videoItemClip vm dur env i item)

/-- The failure record pushed by the executor's own `catch` (lines
1119–1131). -/
def videoCatchClip (vm : VideoModel) (item : GenItem) (msg : String) :
    VideoClipResult :=
  { shotNumber := item.shotNumber
    url := ""
    localPath := ""
    originalPrompt := item.prompt
    sourceImage := item.sourceImage
    duration := 0
    model := videoModelName vm
    generationTime := "0s"
    estimatedCost := "$0.00"
    success := false
    error := some msg }

/-- The sequential clip loop (lines 1083–1141).  In the non-throwing branch
the 2 s pacing sleep follows every non-final item (success or caught
failure alike — it sits inside the `try` after the push); the `catch` branch
pushes `videoCatchClip` and sleeps 30 s when the message contains
`'rate limit'` or `'429'` (case-sensitive) — a branch `generateSingleClip`
never reaches. -/
def runVideoItems (vm : VideoModel) (dur : ℚ) (env : VideoEnv) (n : Nat) :
    List GenItem → Nat → List VideoClipResult × Nat × Nat × List Event
  | [], _ => ([], 0, 0, [])
  | item :: rest, i =>
    let tail := runVideoItems vm dur env n rest (i + 1)
    match generateSingleClipE vm dur env i item with
    | .ok clip =>
      (clip :: tail.1,
       (if clip.success then tail.2.1 + 1 else tail.2.1),
       (if clip.success then tail.2.2.1 else tail.2.2.1 + 1),
       (Event.call i :: (if i + 1 < n then [Event.sleep 2000] else [])) ++ tail.2.2.2)
    | .error msg =>
      (videoCatchClip vm item msg :: tail.1, tail.2.1, tail.2.2.1 + 1,
       (if hasSubS msg "rate limit" || hasSubS msg "429" then
          [Event.sleep 30000] else []) ++ tail.2.2.2)

/-- The assembled deliverable (`finalVideo`). -/
structure FinalVideo where
  url : String
  localPath : String
  duration : ℚ
  format : String
deriving DecidableEq

/-- Source function `stitchClipsWithFFmpeg` (lines 908–992): filter to the successful clips
with a truthy local path; none → `null`; exactly one → pass it through
unchanged; two or more → run the FFmpeg concat, whose success yields a fresh
output file with duration the sum of the inputs' durations and whose error
rejects. -/
def stitchClipsWithFFmpeg (clips : List VideoClipResult) (env : VideoEnv) :
    Except String (Option FinalVideo) :=
  let succ := clips.filter (fun c => c.success && !(c.localPath == ""))
  match succ with
  | [] => .ok none
  | [c] => .ok (some { url := c.url, localPath := c.localPath,
                       duration := c.duration, format := "mp4" })
  | _ =>
    match env.ffmpeg with
    | .ok _ =>
      let fname := "final-video-" ++ toString env.stitchStamp ++ ".mp4"
      .ok (some { url := "/generated-videos/" ++ fname
                  localPath := pathJoin env.cwd ("public/generated-videos/" ++ fname)
                  duration := (succ.map (·.duration)).sum
                  format := "mp4" })
    | .error e => .error e

/-- The stitching step of the executor (lines 1143–1158): attempted only when
at least one clip succeeded; a `null` stitch result leaves the default
`'skipped'`, a resolved one sets `'success'`, a rejection is caught and sets
`'failed'` with no deliverable. -/
def videoStitchStep (env : VideoEnv) (clips : List VideoClipResult) (sc : Nat) :
    Option FinalVideo × String :=
  if 0 < sc then
    match stitchClipsWithFFmpeg clips env with
    | .ok (some r) => (some r, "success")
    | .ok none => (none, "skipped")
    | .error _ => (none, "failed")
  else (none, "skipped")

/-- The returned batch outcome (interface `VideoGenOutput`).  Note it carries
no requested-count field at all. -/
structure VideoGenOutput where
  clips : List VideoClipResult
  finalVideo : Option FinalVideo
  totalGenerated : Nat
  totalFailed : Nat
  estimatedTotalCost : String
  provider : String
  stitchingStatus : String
deriving DecidableEq

/-- Source function `executeVideoGenNode` (lines 997–1182) on an already-normalized prompt
list: resolve the config defaults (`minimax`, 5 s), cap the batch at
`MAX_CLIPS = 10` (the overflow is only `console.warn`-logged), run the loop,
stitch, and total the cost as
`(Σ successful durations × costPerSecond).toFixed(2)`. -/
def executeVideoGenNode (cfg : VideoConfig) (items : List GenItem) (env : VideoEnv) :
    VideoGenOutput × List Event :=
  let vm := cfg.model.getD .minimax
  let dur := orNum cfg.duration 5
  let toGen := items.take 10
  let run := runVideoItems vm dur env toGen.length toGen 0
  let st := videoStitchStep env run.1 run.2.1
  ({ clips := run.1
     finalVideo := st.1
     totalGenerated := run.2.1
     totalFailed := run.2.2.1
     estimatedTotalCost := "$" ++ toFixed 2
       ((((run.1.filter (·.success)).map (·.duration)).sum) * costPerSecondOf vm)
     provider := "replicate"
     stitchingStatus := st.2 }, run.2.2.2)

/-! ## Basic lemmas -/

/-- Whether `v` is a proper object. -/
def JSVal.isObj : JSVal → Bool
  | .vObj _ => true
  | _ => false

lemma String.data_append_eq (s t : String) : (s ++ t).data = s.data ++ t.data := by
  cases s
  cases t
  rfl

lemma append_left_ne_empty (s t : String) (h : s.data ≠ []) : s ++ t ≠ "" := by
  intro he
  apply h
  have hd : (s ++ t).data = [] := by rw [he]
  rw [String.data_append_eq] at hd
  exact (List.append_eq_nil.mp hd).1

lemma pathJoin_ne_empty (cwd rest : String) (h : rest.data ≠ []) :
    pathJoin cwd rest ≠ "" := by
  unfold pathJoin
  split
  · intro he
    apply h
    rw [he]
  · intro he
    have hd : ((cwd ++ "/") ++ rest).data = [] := by rw [he]
    rw [String.data_append_eq, String.data_append_eq] at hd
    simp [List.append_eq_nil] at hd

lemma getFieldE_of_isObj (v : JSVal) (k : String) (h : v.isObj = true) :
    getFieldE v k = .ok (getFieldD v k) := by
  cases v <;> simp_all [JSVal.isObj, getFieldE, getFieldD]

/-! ## Image-loop lemmas -/

/-- Full success or full failure of an image record, with costs. -/
def imageShape (mk : FluxModel) (env : ImageEnv) (r : ImageResult) : Prop :=
  (r.success = true ∧ r.url ≠ "" ∧ r.localPath ≠ "" ∧ r.error = none ∧
    r.estimatedCost = "$" ++ toFixed 4 (costPerImage mk)) ∨
  (r.success = false ∧ r.url = "" ∧ r.localPath = "" ∧
    r.estimatedCost = "$0.0000" ∧
    ∃ j msg, env.provider j = .error msg ∧ r.error = some msg)

lemma imageItemResult_shape (mk : FluxModel) (env : ImageEnv) (i : Nat)
    (item : GenItem) : imageShape mk env (imageItemResult mk env i item) := by
  unfold imageShape imageItemResult
  cases h : env.provider i with
  | ok _ =>
    left
    refine ⟨rfl, ?_, ?_, rfl, rfl⟩
    · exact append_left_ne_empty _ _ (by decide)
    · exact pathJoin_ne_empty _ _ (by
        rw [String.data_append_eq]
        simp)
  | error msg =>
    right
    exact ⟨rfl, rfl, rfl, rfl, i, msg, h, rfl⟩

lemma runImage_length (mk : FluxModel) (env : ImageEnv) (n : Nat) :
    ∀ (l : List GenItem) (i : Nat), ((runImageItems mk env n l i).1).length = l.length := by
  intro l
  induction l with
  | nil => intro i; simp [runImageItems]
  | cons a l ih => intro i; simp [runImageItems, ih]

lemma runImage_countP (mk : FluxModel) (env : ImageEnv) (n : Nat) :
    ∀ (l : List GenItem) (i : Nat),
      (runImageItems mk env n l i).2.1 = ((runImageItems mk env n l i).1).countP (·.success) := by
  intro l
  induction l with
  | nil => intro i; simp [runImageItems]
  | cons a l ih =>
    intro i
    by_cases h : (imageItemResult mk env i a).success <;>
      simp [runImageItems, List.countP_cons, h, ih]

lemma runImage_total (mk : FluxModel) (env : ImageEnv) (n : Nat) :
    ∀ (l : List GenItem) (i : Nat),
      (runImageItems mk env n l i).2.1 + (runImageItems mk env n l i).2.2.1 = l.length := by
  intro l
  induction l with
  | nil => intro i; simp [runImageItems]
  | cons a l ih =>
    intro i
    have hih := ih (i + 1)
    by_cases h : (imageItemResult mk env i a).success <;>
      simp [runImageItems, h] <;> omega

lemma imageItemResult_originalPrompt (mk : FluxModel) (env : ImageEnv) (i : Nat)
    (item : GenItem) : (imageItemResult mk env i item).originalPrompt = item.prompt := by
  unfold imageItemResult
  cases env.provider i <;> rfl

lemma runImage_prompts (mk : FluxModel) (env : ImageEnv) (n : Nat) :
    ∀ (l : List GenItem) (i : Nat),
      ((runImageItems mk env n l i).1).map (·.originalPrompt) = l.map (·.prompt) := by
  intro l
  induction l with
  | nil => intro i; simp [runImageItems]
  | cons a l ih =>
    intro i
    simp [runImageItems, imageItemResult_originalPrompt, ih]

lemma runImage_mem (mk : FluxModel) (env : ImageEnv) (n : Nat) :
    ∀ (l : List GenItem) (i : Nat) (r : ImageResult),
      r ∈ (runImageItems mk env n l i).1 →
      ∃ j item, r = imageItemResult mk env j item := by
  intro l
  induction l with
  | nil => intro i r hr; simp [runImageItems] at hr
  | cons a l ih =>
    intro i r hr
    simp only [runImageItems, List.mem_cons] at hr
    rcases hr with hr | hr
    · exact ⟨i, a, hr⟩
    · exact ih (i + 1) r hr

lemma runImage_shape (mk : FluxModel) (env : ImageEnv) (n : Nat)
    (l : List GenItem) (i : Nat) (r : ImageResult)
    (hr : r ∈ (runImageItems mk env n l i).1) : imageShape mk env r := by
  obtain ⟨j, item, rfl⟩ := runImage_mem mk env n l i r hr
  exact imageItemResult_shape mk env j item

lemma runImage_get (mk : FluxModel) (env : ImageEnv) (n : Nat) :
    ∀ (l : List GenItem) (i j : Nat),
      ((runImageItems mk env n l i).1)[j]? =
        (l[j]?).map (fun it => imageItemResult mk env (i + j) it) := by
  intro l
  induction l with
  | nil => intro i j; simp [runImageItems]
  | cons a l ih =>
    intro i j
    cases j with
    | zero => simp [runImageItems]
    | succ j =>
      have harith : i + 1 + j = i + (j + 1) := by omega
      simp [runImageItems, ih (i + 1) j, harith]

lemma imageItemEvents_call (env : ImageEnv) (i : Nat) (b : Bool) (j : Nat)
    (h : Event.call j ∈ imageItemEvents env i b) : j = i := by
  cases hp : env.provider i with
  | ok v =>
    simp only [imageItemEvents, hp] at h
    rcases List.mem_cons.mp h with h | h
    · injection h
    · exfalso
      split at h <;> simp at h
  | error msg =>
    simp only [imageItemEvents, hp] at h
    rcases List.mem_cons.mp h with h | h
    · injection h
    · exfalso
      split at h <;> simp at h

lemma runImage_calls (mk : FluxModel) (env : ImageEnv) (n : Nat) :
    ∀ (l : List GenItem) (i j : Nat),
      Event.call j ∈ (runImageItems mk env n l i).2.2.2 → i ≤ j ∧ j < i + l.length := by
  intro l
  induction l with
  | nil => intro i j h; simp [runImageItems] at h
  | cons a l ih =>
    intro i j h
    simp only [runImageItems, List.mem_append] at h
    simp only [List.length_cons]
    rcases h with h | h
    · have := imageItemEvents_call env i _ j h
      omega
    · have := ih (i + 1) j h
      omega

lemma imageItemEvents_noRL (env : ImageEnv) (i : Nat) (b : Bool)
    (h : ∀ j msg, env.provider j = .error msg → hasSubS msg "rate limit" = false) :
    Event.sleep 10000 ∉ imageItemEvents env i b := by
  intro hm
  cases hp : env.provider i with
  | ok v =>
    simp only [imageItemEvents, hp] at hm
    rcases List.mem_cons.mp hm with hm | hm
    · simp at hm
    · split at hm <;> simp at hm
  | error msg =>
    simp only [imageItemEvents, hp, h i msg hp] at hm
    rcases List.mem_cons.mp hm with hm | hm
    · simp at hm
    · split at hm <;> simp_all

lemma runImage_noRL (mk : FluxModel) (env : ImageEnv) (n : Nat)
    (h : ∀ j msg, env.provider j = .error msg → hasSubS msg "rate limit" = false) :
    ∀ (l : List GenItem) (i : Nat),
      Event.sleep 10000 ∉ (runImageItems mk env n l i).2.2.2 := by
  intro l
  induction l with
  | nil => intro i; simp [runImageItems]
  | cons a l ih =>
    intro i hm
    simp only [runImageItems, List.mem_append] at hm
    rcases hm with hm | hm
    · exact imageItemEvents_noRL env i _ h hm
    · exact ih (i + 1) hm

/-! ## Video-loop lemmas -/

/-- Full success or full failure of a video clip record, with durations and
costs. -/
def videoShape (vm : VideoModel) (dur : ℚ) (env : VideoEnv) (c : VideoClipResult) : Prop :=
  (c.success = true ∧ c.url ≠ "" ∧ c.localPath ≠ "" ∧ c.error = none ∧
    c.duration = dur ∧
    c.estimatedCost = "$" ++ toFixed 2 (dur * costPerSecondOf vm)) ∨
  (c.success = false ∧ c.url = "" ∧ c.localPath = "" ∧ c.duration = 0 ∧
    c.estimatedCost = "$0.00" ∧
    ∃ j msg, env.provider j = .error msg ∧ c.error = some msg)

lemma videoItemClip_shape (vm : VideoModel) (dur : ℚ) (env : VideoEnv) (i : Nat)
    (item : GenItem) : videoShape vm dur env (videoItemClip vm dur env i item) := by
  unfold videoShape videoItemClip
  cases h : env.provider i with
  | ok _ =>
    left
    refine ⟨rfl, ?_, ?_, rfl, rfl, rfl⟩
    · exact append_left_ne_empty _ _ (by decide)
    · exact pathJoin_ne_empty _ _ (by
        rw [String.data_append_eq]
        simp)
  | error msg =>
    right
    exact ⟨rfl, rfl, rfl, rfl, rfl, i, msg, h, rfl⟩

lemma videoItemClip_originalPrompt (vm : VideoModel) (dur : ℚ) (env : VideoEnv)
    (i : Nat) (item : GenItem) :
    (videoItemClip vm dur env i item).originalPrompt = item.prompt := by
  unfold videoItemClip
  cases env.provider i <;> rfl

lemma runVideo_length (vm : VideoModel) (dur : ℚ) (env : VideoEnv) (n : Nat) :
    ∀ (l : List GenItem) (i : Nat),
      ((runVideoItems vm dur env n l i).1).length = l.length := by
  intro l
  induction l with
  | nil => intro i; simp [runVideoItems]
  | cons a l ih => intro i; simp [runVideoItems, generateSingleClipE, ih]

lemma runVideo_countP (vm : VideoModel) (dur : ℚ) (env : VideoEnv) (n : Nat) :
    ∀ (l : List GenItem) (i : Nat),
      (runVideoItems vm dur env n l i).2.1 =
        ((runVideoItems vm dur env n l i).1).countP (·.success) := by
  intro l
  induction l with
  | nil => intro i; simp [runVideoItems]
  | cons a l ih =>
    intro i
    by_cases h : (videoItemClip vm dur env i a).success <;>
      simp [runVideoItems, generateSingleClipE, List.countP_cons, h, ih]

lemma runVideo_total (vm : VideoModel) (dur : ℚ) (env : VideoEnv) (n : Nat) :
    ∀ (l : List GenItem) (i : Nat),
      (runVideoItems vm dur env n l i).2.1 + (runVideoItems vm dur env n l i).2.2.1 = l.length := by
  intro l
  induction l with
  | nil => intro i; simp [runVideoItems]
  | cons a l ih =>
    intro i
    have hih := ih (i + 1)
    by_cases h : (videoItemClip vm dur env i a).success <;>
      simp [runVideoItems, generateSingleClipE, h] <;> omega

lemma runVideo_prompts (vm : VideoModel) (dur : ℚ) (env : VideoEnv) (n : Nat) :
    ∀ (l : List GenItem) (i : Nat),
      ((runVideoItems vm dur env n l i).1).map (·.originalPrompt) = l.map (·.prompt) := by
  intro l
  induction l with
  | nil => intro i; simp [runVideoItems]
  | cons a l ih =>
    intro i
    simp [runVideoItems, generateSingleClipE, videoItemClip_originalPrompt, ih]

lemma runVideo_mem (vm : VideoModel) (dur : ℚ) (env : VideoEnv) (n : Nat) :
    ∀ (l : List GenItem) (i : Nat) (c : VideoClipResult),
      c ∈ (runVideoItems vm dur env n l i).1 →
      ∃ j item, c = videoItemClip vm dur env j item := by
  intro l
  induction l with
  | nil => intro i c hc; simp [runVideoItems] at hc
  | cons a l ih =>
    intro i c hc
    simp only [runVideoItems, generateSingleClipE, List.mem_cons] at hc
    rcases hc with hc | hc
    · exact ⟨i, a, hc⟩
    · exact ih (i + 1) c hc

lemma runVideo_shape (vm : VideoModel) (dur : ℚ) (env : VideoEnv) (n : Nat)
    (l : List GenItem) (i : Nat) (c : VideoClipResult)
    (hc : c ∈ (runVideoItems vm dur env n l i).1) : videoShape vm dur env c := by
  obtain ⟨j, item, rfl⟩ := runVideo_mem vm dur env n l i c hc
  exact videoItemClip_shape vm dur env j item

lemma runVideo_no30000 (vm : VideoModel) (dur : ℚ) (env : VideoEnv) (n : Nat) :
    ∀ (l : List GenItem) (i : Nat),
      Event.sleep 30000 ∉ (runVideoItems vm dur env n l i).2.2.2 := by
  intro l
  induction l with
  | nil => intro i; simp [runVideoItems]
  | cons a l ih =>
    intro i hm
    simp only [runVideoItems, generateSingleClipE, List.mem_append] at hm
    rcases hm with hm | hm
    · rcases List.mem_cons.mp hm with hm | hm
      · simp at hm
      · split at hm <;> simp at hm
    · exact ih (i + 1) hm

lemma runVideo_calls (vm : VideoModel) (dur : ℚ) (env : VideoEnv) (n : Nat) :
    ∀ (l : List GenItem) (i j : Nat),
      Event.call j ∈ (runVideoItems vm dur env n l i).2.2.2 → i ≤ j ∧ j < i + l.length := by
  intro l
  induction l with
  | nil => intro i j h; simp [runVideoItems] at h
  | cons a l ih =>
    intro i j h
    simp only [runVideoItems, generateSingleClipE, List.mem_append] at h
    simp only [List.length_cons]
    rcases h with h | h
    · rcases List.mem_cons.mp h with h | h
      · injection h with h
        omega
      · exfalso
        split at h <;> simp at h
    · have := ih (i + 1) j h
      omega

lemma runVideo_ffmpegIndep (vm : VideoModel) (dur : ℚ) (env : VideoEnv)
    (x : Except String Unit) (n : Nat) :
    ∀ (l : List GenItem) (i : Nat),
      runVideoItems vm dur { env with ffmpeg := x } n l i = runVideoItems vm dur env n l i := by
  intro l
  induction l with
  | nil => intro i; simp [runVideoItems]
  | cons a l ih =>
    intro i
    simp [runVideoItems, generateSingleClipE, videoItemClip, videoFilename, ih]

/-! ## Stitching lemmas -/

lemma filter_success_eq (clips : List VideoClipResult)
    (hlp : ∀ c ∈ clips, c.success = true → c.localPath ≠ "") :
    clips.filter (fun c => c.success && !(c.localPath == "")) =
      clips.filter (·.success) := by
  apply List.filter_congr
  intro c hc
  cases hs : c.success with
  | false => simp [hs]
  | true =>
    have hne := hlp c hc hs
    simp [hs, hne]

lemma stitch_zero (clips : List VideoClipResult) (env : VideoEnv)
    (hlp : ∀ c ∈ clips, c.success = true → c.localPath ≠ "")
    (h0 : clips.filter (·.success) = []) :
    stitchClipsWithFFmpeg clips env = .ok none := by
  simp only [stitchClipsWithFFmpeg, filter_success_eq clips hlp, h0]

lemma stitch_one (clips : List VideoClipResult) (env : VideoEnv)
    (hlp : ∀ c ∈ clips, c.success = true → c.localPath ≠ "")
    (c : VideoClipResult) (h1 : clips.filter (·.success) = [c]) :
    stitchClipsWithFFmpeg clips env =
      .ok (some { url := c.url, localPath := c.localPath,
                  duration := c.duration, format := "mp4" }) := by
  simp only [stitchClipsWithFFmpeg, filter_success_eq clips hlp, h1]

lemma stitch_many_ok (clips : List VideoClipResult) (env : VideoEnv)
    (hlp : ∀ c ∈ clips, c.success = true → c.localPath ≠ "")
    (c1 c2 : VideoClipResult) (rest : List VideoClipResult)
    (h2 : clips.filter (·.success) = c1 :: c2 :: rest)
    (hff : env.ffmpeg = .ok ()) :
    ∃ fv, stitchClipsWithFFmpeg clips env = .ok (some fv) ∧
      fv.duration = ((clips.filter (·.success)).map (·.duration)).sum := by
  have hfe := filter_success_eq clips hlp
  refine ⟨{ url := "/generated-videos/" ++ ("final-video-" ++ toString env.stitchStamp ++ ".mp4")
            localPath := pathJoin env.cwd
              ("public/generated-videos/" ++ ("final-video-" ++ toString env.stitchStamp ++ ".mp4"))
            duration := ((clips.filter (·.success)).map (·.duration)).sum
            format := "mp4" }, ?_, rfl⟩
  simp only [stitchClipsWithFFmpeg, hfe, h2, hff]

lemma stitch_many_err (clips : List VideoClipResult) (env : VideoEnv)
    (hlp : ∀ c ∈ clips, c.success = true → c.localPath ≠ "")
    (c1 c2 : VideoClipResult) (rest : List VideoClipResult)
    (h2 : clips.filter (·.success) = c1 :: c2 :: rest)
    (e : String) (hff : env.ffmpeg = .error e) :
    stitchClipsWithFFmpeg clips env = .error e := by
  simp only [stitchClipsWithFFmpeg, filter_success_eq clips hlp, h2, hff]

/-! ## Rounding lemmas -/

lemma roundHalfUp_intCast (m : ℤ) : roundHalfUp (m : ℚ) = m := by
  unfold roundHalfUp
  refine Int.floor_eq_iff.mpr ⟨?_, ?_⟩
  · linarith
  · linarith

lemma rnd_intCast_div (d : Nat) (m : ℤ) :
    rnd d ((m : ℚ) / (10 : ℚ) ^ d) = (m : ℚ) / (10 : ℚ) ^ d := by
  unfold rnd
  have h10 : ((10 : ℚ) ^ d) ≠ 0 := by positivity
  have hm : (m : ℚ) / (10 : ℚ) ^ d * (10 : ℚ) ^ d = (m : ℚ) := by
    field_simp
  rw [hm, roundHalfUp_intCast]

lemma rnd4_mul_aux (k : ℕ) (m : ℤ) :
    rnd 4 ((k : ℚ) * ((m : ℚ) / (10 : ℚ) ^ 4)) =
      (k : ℚ) * rnd 4 ((m : ℚ) / (10 : ℚ) ^ 4) := by
  rw [rnd_intCast_div 4 m]
  have hk : (k : ℚ) * ((m : ℚ) / (10 : ℚ) ^ 4) =
      ((((k : ℤ) * m) : ℤ) : ℚ) / (10 : ℚ) ^ 4 := by
    push_cast
    ring
  rw [hk, rnd_intCast_div 4 ((k : ℤ) * m)]

lemma rnd4_mul_cost (k : ℕ) (mk : FluxModel) :
    rnd 4 ((k : ℚ) * costPerImage mk) = (k : ℚ) * rnd 4 (costPerImage mk) := by
  cases mk with
  | fluxDev =>
    have h : costPerImage .fluxDev = ((250 : ℤ) : ℚ) / (10 : ℚ) ^ 4 := by
      norm_num [costPerImage]
    rw [h]
    exact rnd4_mul_aux k 250
  | fluxPro11 =>
    have h : costPerImage .fluxPro11 = ((400 : ℤ) : ℚ) / (10 : ℚ) ^ 4 := by
      norm_num [costPerImage]
    rw [h]
    exact rnd4_mul_aux k 400
  | fluxSchnell =>
    have h : costPerImage .fluxSchnell = ((30 : ℤ) : ℚ) / (10 : ℚ) ^ 4 := by
      norm_num [costPerImage]
    rw [h]
    exact rnd4_mul_aux k 30

/-! ## Normalizer lemmas -/

@[simp] lemma exceptOkBind {ε α β : Type} (a : α) (f : α → Except ε β) :
    (do let x ← (Except.ok a : Except ε α); f x) = f a := rfl

lemma imgArrayItem_ok (i : Nat) (x : JSVal) (h : x.isNullish = false) :
    ∃ w, imgArrayItem i x = .ok w := by
  cases x <;> first
    | exact ⟨_, rfl⟩
    | simp [JSVal.isNullish] at h

lemma vidArrayItem_ok (i : Nat) (x : JSVal) (h : x.isNullish = false) :
    ∃ w, vidArrayItem i x = .ok w := by
  cases x <;> first
    | exact ⟨_, rfl⟩
    | simp [JSVal.isNullish] at h

lemma mapIdxE_ok (f : Nat → JSVal → Except String WorkItem)
    (hf : ∀ i x, x.isNullish = false → ∃ w, f i x = .ok w) :
    ∀ (l : List JSVal) (i : Nat), (∀ x ∈ l, x.isNullish = false) →
      ∃ ws, mapIdxE f l i = .ok ws ∧ ws.length = l.length := by
  intro l
  induction l with
  | nil => intro i _; exact ⟨[], rfl, rfl⟩
  | cons x xs ih =>
    intro i h
    obtain ⟨w, hw⟩ := hf i x (h x (List.mem_cons_self x xs))
    obtain ⟨ws, hws, hlen⟩ := ih (i + 1) (fun y hy => h y (List.mem_cons_of_mem x hy))
    refine ⟨w :: ws, ?_, by simp [hlen]⟩
    simp [mapIdxE, hw, hws]

lemma extractPrompts_string (s : String) :
    ∃ l, extractPrompts (.vStr s) = .ok l ∧ l ≠ [] := by
  by_cases h : hasSubS s "```"
  · by_cases h2 : (extractPromptsFromMarkdown s).isEmpty
    · exact ⟨[stringImageItem s], by simp [extractPrompts, h, h2], by simp⟩
    · refine ⟨extractPromptsFromMarkdown s, by simp [extractPrompts, h, h2], ?_⟩
      intro hnil
      exact h2 (by simp [hnil])
  · exact ⟨[stringImageItem s], by simp [extractPrompts, h], by simp⟩

lemma extractVideoPrompts_string (s : String) :
    ∃ l, extractVideoPrompts (.vStr s) = .ok l ∧ l ≠ [] := by
  by_cases h : hasSubS s "```"
  · by_cases h2 : (extractPromptsFromMarkdownVideo s).isEmpty
    · exact ⟨[stringVideoItem s], by simp [extractVideoPrompts, h, h2], by simp⟩
    · refine ⟨extractPromptsFromMarkdownVideo s, by simp [extractVideoPrompts, h, h2], ?_⟩
      intro hnil
      exact h2 (by simp [hnil])
  · exact ⟨[stringVideoItem s], by simp [extractVideoPrompts, h], by simp⟩

/-- The filter of the video normalizer's `images` case, as a Boolean
predicate on a proper-object entry. -/
def imgKeep (e : JSVal) : Bool :=
  truthy (getFieldD e "success") && truthy (getFieldD e "localPath")

/-- The mapping of the video normalizer's `images` case, written out over the
kept entries (post-filter positions). -/
def expectedVidMap : List JSVal → Nat → List WorkItem
  | [], _ => []
  | e :: es, i =>
    ⟨jsOr (getFieldD e "shotNumber") (.vNum ((i : ℚ) + 1)),
     jsOr (getFieldD e "originalPrompt") (.vStr ("Shot " ++ toString (i + 1))),
     getFieldD e "localPath",
     jsOr (getFieldD e "aspectRatio") (.vStr "16:9"), .vUndefined⟩ :: expectedVidMap es (i + 1)

lemma filterImagesE_obj :
    ∀ (l : List JSVal), (∀ e ∈ l, e.isObj = true) →
      filterImagesE l = .ok (l.filter imgKeep) := by
  intro l
  induction l with
  | nil => intro _; rfl
  | cons e es ih =>
    intro h
    have he : e.isObj = true := h e (List.mem_cons_self e es)
    have ihh := ih (fun y hy => h y (List.mem_cons_of_mem e hy))
    by_cases hs : truthy (getFieldD e "success")
    · by_cases hlp : truthy (getFieldD e "localPath") <;>
        simp [filterImagesE, getFieldE_of_isObj e _ he, ihh, List.filter_cons,
          imgKeep, hs, hlp]
    · simp [filterImagesE, getFieldE_of_isObj e _ he, ihh, List.filter_cons,
        imgKeep, hs]

lemma vidImagesEntry_obj (i : Nat) (e : JSVal) (he : e.isObj = true) :
    vidImagesEntry i e =
      .ok ⟨jsOr (getFieldD e "shotNumber") (.vNum ((i : ℚ) + 1)),
           jsOr (getFieldD e "originalPrompt") (.vStr ("Shot " ++ toString (i + 1))),
           getFieldD e "localPath",
           jsOr (getFieldD e "aspectRatio") (.vStr "16:9"), .vUndefined⟩ := by
  cases e <;> first
    | rfl
    | simp [JSVal.isObj] at he

lemma expectedVidMap_spec :
    ∀ (l : List JSVal) (i : Nat), (∀ e ∈ l, e.isObj = true) →
      mapIdxE vidImagesEntry l i = .ok (expectedVidMap l i) := by
  intro l
  induction l with
  | nil => intro i _; rfl
  | cons e es ih =>
    intro i h
    have he : e.isObj = true := h e (List.mem_cons_self e es)
    have ihh := ih (i + 1) (fun y hy => h y (List.mem_cons_of_mem e hy))
    simp [mapIdxE, vidImagesEntry_obj i e he, ihh, expectedVidMap]

/-! ## Markdown lemmas -/

lemma numberBlocks_map_prompt (mkIt : Nat → String → WorkItem)
    (hmk : ∀ k p, (mkIt k p).prompt = JSVal.vStr p) :
    ∀ (bs : List (List Char)) (k : Nat),
      (numberBlocks mkIt bs k).map (·.prompt) =
        ((bs.map trimL).filter keepBlock).map (fun c => JSVal.vStr (String.mk c)) := by
  intro bs
  induction bs with
  | nil => intro k; rfl
  | cons b bs ih =>
    intro k
    by_cases hk : keepBlock (trimL b) <;>
      simp [numberBlocks, hk, hmk, ih, List.filter_cons]

lemma numberBlocks_map_shot (mkIt : Nat → String → WorkItem)
    (hmk : ∀ k p, (mkIt k p).shotNumber = JSVal.vNum (k : ℚ)) :
    ∀ (bs : List (List Char)) (k : Nat),
      (numberBlocks mkIt bs k).map (·.shotNumber) =
        (List.range (((bs.map trimL).filter keepBlock).length)).map
          (fun i => JSVal.vNum ((k + i : ℕ) : ℚ)) := by
  intro bs
  induction bs with
  | nil => intro k; rfl
  | cons b bs ih =>
    intro k
    by_cases hk : keepBlock (trimL b)
    · simp only [numberBlocks, hk, if_true, List.map_cons, hmk, ih (k + 1),
        List.map_cons, List.filter_cons, List.length_cons,
        List.range_succ_eq_map, List.map_map]
      congr 1
      apply List.map_congr_left
      intro a _
      have hn : k + 1 + a = k + (a + 1) := by omega
      simp [Function.comp, hn]
    · simp [numberBlocks, hk, ih k, List.filter_cons]

lemma extractBlocksGo_eq_nil :
    ∀ (fuel : Nat) (l : List Char), hasSubL fenceOpenL l = false →
      extractBlocksGo fuel l = [] := by
  intro fuel
  induction fuel with
  | zero => intro l _; cases l <;> rfl
  | succ fuel ih =>
    intro l h
    cases l with
    | nil => rfl
    | cons c rest =>
      rw [hasSubL, Bool.or_eq_false_iff] at h
      rw [extractBlocksGo, if_neg (by simp [h.1])]
      exact ih rest h.2

lemma extractBlocksL_eq_nil (l : List Char) (h : hasSubL fenceOpenL l = false) :
    extractBlocksL l = [] :=
  extractBlocksGo_eq_nil l.length l h

/-! ## Concrete fixtures -/

/-- The kept block of the three-block markdown example. -/
def validBlock : String :=
  "A cinematic wide shot of a mountain landscape at golden hour, volumetric light"

/-- A markdown string with three fenced blocks: one under 50 characters, one
containing `"Negative prompt:"`, one valid. -/
def exThree : String :=
  "```\ntoo short\n```\n```\nNegative prompt: blurry, low quality, oversaturated colors, bad anatomy\n```\n```\n" ++
    validBlock ++ "\n```"

/-- The inter-fence sentence of the two-tagged-block example (66 characters,
free of the filtered substrings). -/
def midSentence : String :=
  "The second block below continues the same cinematic sequence here."

/-- Two language-tagged fenced blocks around a long plain sentence. -/
def exTagged : String :=
  "```json\n[1]\n```\n" ++ midSentence ++ "\n```json\n[2]\n```"

/-- A single language-tagged fenced block. -/
def exSingleTagged : String :=
  "```json\nA cinematic wide shot of a mountain landscape at golden hour\n```"

/-- One well-formed entry of a prior image-batch output. -/
def goodEntry : JSVal :=
  .vObj [("success", .vBool true), ("localPath", .vStr "/tmp/shot-1.png"),
         ("originalPrompt", .vStr "a red fox"), ("shotNumber", .vNum 1),
         ("aspectRatio", .vStr "16:9")]

/-- A prior image-batch output value (`{ images: [...] }`). -/
def imgOutObj : JSVal := .vObj [("images", .vArr [goodEntry])]

/-- A typical normalized work item. -/
def stdItem : GenItem := ⟨some 1, "a scenic prompt", none, none, none⟩

/-- All-success image environment. -/
def envOkI : ImageEnv :=
  { provider := fun _ => .ok (), stamp := fun _ => 7, elapsed := fun _ => "1.0",
    cwd := "" }

/-- Image environment whose first item fails with a 429 status message. -/
def env429 : ImageEnv :=
  { provider := fun i => if i = 0 then .error "Request failed with status code 429" else .ok ()
    stamp := fun _ => 7, elapsed := fun _ => "1.0", cwd := "" }

/-- Image environment whose first item fails with a lowercase rate-limit
message. -/
def envRL : ImageEnv :=
  { provider := fun i => if i = 0 then .error "rate limit exceeded" else .ok ()
    stamp := fun _ => 7, elapsed := fun _ => "1.0", cwd := "" }

/-- All-success video environment with a succeeding FFmpeg step. -/
def envOkV : VideoEnv :=
  { provider := fun _ => .ok "https://host/video.mp4", stamp := fun _ => 7,
    genTime := fun _ => "9.0", ffmpeg := .ok (), stitchStamp := 11, cwd := "" }

/-- The default video configuration (`minimax`, 5 s). -/
def cfgDefault : VideoConfig := {}

/-- A 25-item image batch. -/
def items25 : List GenItem := List.replicate 25 stdItem

/-- A 15-item video batch. -/
def items15 : List GenItem := List.replicate 15 stdItem

/-! ## Claims -/

/-- Claim C1, corrected: the output normalizers are *not* total non-empty-result
functions.  The empty array maps to the empty sequence (`Array.prototype.map`
over `[]`), an array containing `null` throws a `TypeError` at
`item.shotNumber`, an object with an empty `imagePrompts` array yields the
empty sequence, and the video normalizer behaves likewise on an empty
`images` array. -/
theorem c1_counterexample :
    extractPrompts (.vArr []) = .ok [] ∧
    extractPrompts (.vArr [.vNull]) =
      .error "TypeError: Cannot read properties of null" ∧
    extractPrompts (.vObj [("imagePrompts", .vArr [])]) = .ok [] ∧
    extractVideoPrompts (.vObj [("images", .vArr [])]) = .ok [] ∧
    extractVideoPrompts (.vArr [.vNull]) =
      .error "TypeError: Cannot read properties of null" :=
  ⟨rfl, rfl, rfl, rfl, rfl⟩

/-- Claim C1, amended: for string inputs and non-object scalars
(`null`, `undefined`, booleans, numbers) both normalizers return without
raising and the result is non-empty; for an array whose elements are all
non-nullish, both return without raising with exactly one item per element —
so the result is empty exactly when the array is. -/
theorem c1_amended :
    (∀ s : String, ∃ l, extractPrompts (.vStr s) = .ok l ∧ l ≠ []) ∧
    (∀ s : String, ∃ l, extractVideoPrompts (.vStr s) = .ok l ∧ l ≠ []) ∧
    (extractPrompts .vNull = .ok [defaultImageItem] ∧
      extractPrompts .vUndefined = .ok [defaultImageItem] ∧
      (∀ b, extractPrompts (.vBool b) = .ok [defaultImageItem]) ∧
      (∀ q : ℚ, extractPrompts (.vNum q) = .ok [defaultImageItem])) ∧
    (extractVideoPrompts .vNull = .ok [defaultVideoItem] ∧
      extractVideoPrompts .vUndefined = .ok [defaultVideoItem] ∧
      (∀ b, extractVideoPrompts (.vBool b) = .ok [defaultVideoItem]) ∧
      (∀ q : ℚ, extractVideoPrompts (.vNum q) = .ok [defaultVideoItem])) ∧
    (∀ items : List JSVal, (∀ x ∈ items, x.isNullish = false) →
        ∃ l, extractPrompts (.vArr items) = .ok l ∧ l.length = items.length) ∧
    (∀ items : List JSVal, (∀ x ∈ items, x.isNullish = false) →
        ∃ l, extractVideoPrompts (.vArr items) = .ok l ∧ l.length = items.length) := by
  refine ⟨extractPrompts_string, extractVideoPrompts_string,
    ⟨rfl, rfl, fun _ => rfl, fun _ => rfl⟩,
    ⟨rfl, rfl, fun _ => rfl, fun _ => rfl⟩, ?_, ?_⟩
  · intro items h
    obtain ⟨ws, hws, hlen⟩ := mapIdxE_ok imgArrayItem imgArrayItem_ok items 0 h
    exact ⟨ws, hws, hlen⟩
  · intro items h
    obtain ⟨ws, hws, hlen⟩ := mapIdxE_ok vidArrayItem vidArrayItem_ok items 0 h
    exact ⟨ws, hws, hlen⟩

/-- Witness for `c1_amended` at the singleton array `[ "hi" ]`. -/
theorem c1_amended_witness :
    (extractPrompts (.vArr [.vStr "hi"])).isOk = true := by
  obtain ⟨l, hl, _⟩ := c1_amended.2.2.2.2.1 [.vStr "hi"] (by
    intro x hx
    rw [List.mem_singleton] at hx
    subst hx
    rfl)
  rw [hl]
  rfl

set_option maxRecDepth 4000 in
/-- Claim C4, confirmed: markdown extraction filters the trimmed fenced blocks
(case-insensitive `"negative prompt:"` / `"technical specifications"`
substrings, trimmed length under 50) and numbers the kept blocks
sequentially from 1; on the three-block example exactly one work item with
shot number 1 survives. -/
theorem c4_markdown_extraction :
    (∀ t : String,
        (extractPromptsFromMarkdown t).map (·.prompt) =
          (((extractBlocksL t.data).map trimL).filter keepBlock).map
            (fun c => JSVal.vStr (String.mk c))) ∧
    (∀ t : String,
        (extractPromptsFromMarkdown t).map (·.shotNumber) =
          (List.range ((((extractBlocksL t.data).map trimL).filter keepBlock).length)).map
            (fun i => JSVal.vNum ((1 + i : ℕ) : ℚ))) ∧
    (extractBlocksL exThree.data).length = 3 ∧
    extractPromptsFromMarkdown exThree = [mdImageItem 1 validBlock] ∧
    extractPrompts (.vStr exThree) = .ok [mdImageItem 1 validBlock] ∧
    extractPromptsFromMarkdownVideo exThree = [mdVideoItem 1 validBlock] := by
  refine ⟨?_, ?_, rfl, rfl, rfl, rfl⟩
  · intro t
    exact numberBlocks_map_prompt mdImageItem (fun _ _ => rfl) _ 1
  · intro t
    exact numberBlocks_map_shot mdImageItem (fun _ _ => rfl) _ 1

set_option maxRecDepth 4000 in
/-- Claim C10, corrected: the regex pattern `'```' + newline` can match the
*closing* fence of a language-tagged block followed by a newline, so with two
tagged blocks the inter-fence sentence is extracted as a block of its own —
extraction does not always find zero blocks on tagged-only input. -/
theorem c10_counterexample :
    (extractBlocksL exTagged.data).map String.mk = [midSentence] ∧
    extractPrompts (.vStr exTagged) = .ok [mdImageItem 1 midSentence] ∧
    midSentence ≠ exTagged :=
  ⟨rfl, rfl, by decide⟩

/-- Claim C10, amended: extraction only matches an opening backtick fence
immediately followed by a newline; when the substring `'```' + newline` does
not occur at all (e.g. a single language-tagged block), extraction finds
zero blocks and — if the string still contains `'```'` — the normalizer wraps
the entire string as one work item with shot number 1. -/
theorem c10_amended :
    (∀ s : String, hasSubS s "```\n" = false → extractPromptsFromMarkdown s = []) ∧
    (∀ s : String, hasSubS s "```\n" = false → extractPromptsFromMarkdownVideo s = []) ∧
    (∀ s : String, hasSubS s "```\n" = false → hasSubS s "```" = true →
        extractPrompts (.vStr s) = .ok [stringImageItem s]) ∧
    (∀ s : String, hasSubS s "```\n" = false → hasSubS s "```" = true →
        extractVideoPrompts (.vStr s) = .ok [stringVideoItem s]) := by
  have hblocks : ∀ s : String, hasSubS s "```\n" = false → extractBlocksL s.data = [] :=
    fun s h => extractBlocksL_eq_nil s.data h
  have hmdI : ∀ s : String, hasSubS s "```\n" = false →
      extractPromptsFromMarkdown s = [] := by
    intro s h
    unfold extractPromptsFromMarkdown
    rw [hblocks s h]
    rfl
  have hmdV : ∀ s : String, hasSubS s "```\n" = false →
      extractPromptsFromMarkdownVideo s = [] := by
    intro s h
    unfold extractPromptsFromMarkdownVideo
    rw [hblocks s h]
    rfl
  refine ⟨hmdI, hmdV, ?_, ?_⟩
  · intro s h h3
    simp [extractPrompts, h3, hmdI s h]
  · intro s h h3
    simp [extractVideoPrompts, h3, hmdV s h]

/-- Witness for `c10_amended` on a single language-tagged block. -/
theorem c10_amended_witness :
    extractPrompts (.vStr exSingleTagged) = .ok [stringImageItem exSingleTagged] :=
  c10_amended.2.2.1 exSingleTagged (by rfl) (by rfl)

/-- Claim C7, corrected: only the *video* normalizer has the `images`
first-priority case; on the image normalizer an `images`-shaped value falls
through the object scan (the entries carry no `prompt` key) to the default
placeholder, so prompt and source image are not taken from the entries. -/
theorem c7_counterexample :
    extractPrompts imgOutObj = .ok [defaultImageItem] ∧
    defaultImageItem.prompt =
      .vStr "cinematic photo, professional lighting, 4:3 aspect ratio" ∧
    defaultImageItem.sourceImage = .vUndefined ∧
    ("cinematic photo, professional lighting, 4:3 aspect ratio" : String) ≠ "a red fox" :=
  ⟨rfl, rfl, rfl, by decide⟩

/-- Claim C7, amended: the *video* normalizer tries the `images` case before
every other shape — for any object whose `images` key holds an array of
proper-object entries, regardless of what other keys the object carries, it
keeps exactly the entries with truthy `success` and truthy `localPath`, in
order, mapping post-filter position `i` to a work item with the entry's
`originalPrompt` (defaulted to `"Shot i+1"`), the entry's `localPath` as
source image, and shot number defaulting to `i+1`.  The *image* normalizer
has no such case: an `images`-shaped value yields the default placeholder. -/
theorem c7_amended :
    (∀ (fields : List (String × JSVal)) (entries : List JSVal),
        lookupField fields "images" = some (.vArr entries) →
        (∀ e ∈ entries, e.isObj = true) →
        extractVideoPrompts (.vObj fields) =
          .ok (expectedVidMap (entries.filter imgKeep) 0)) ∧
    extractPrompts imgOutObj = .ok [defaultImageItem] ∧
    extractVideoPrompts imgOutObj =
      .ok [⟨.vNum 1, .vStr "a red fox", .vStr "/tmp/shot-1.png", .vStr "16:9", .vUndefined⟩] := by
  refine ⟨?_, rfl, rfl⟩
  intro fields entries hlk hobj
  have h1 := filterImagesE_obj entries hobj
  have h2 := expectedVidMap_spec (entries.filter imgKeep) 0
    (fun e he => hobj e (List.mem_of_mem_filter he))
  simp [extractVideoPrompts, hlk, h1, h2]

/-- Witness for `c7_amended` on a one-entry `images` object. -/
theorem c7_amended_witness :
    extractVideoPrompts imgOutObj = .ok (expectedVidMap ([goodEntry].filter imgKeep) 0) :=
  c7_amended.1 [("images", .vArr [goodEntry])] [goodEntry] rfl (by
    intro e he
    rw [List.mem_singleton] at he
    subst he
    rfl)

/-- Claim C9, confirmed: each batch run returns exactly one record per
processed (capped) work item, in input order (witnessed by the
`originalPrompt` projection), and `totalGenerated`/`totalFailed` are the
success count and its complement. -/
theorem c9_batch_invariants :
    (∀ (mk : FluxModel) (items : List GenItem) (env : ImageEnv),
        (executeImageGenNode mk items env).1.images.length = min 20 items.length ∧
        (executeImageGenNode mk items env).1.totalGenerated =
          ((executeImageGenNode mk items env).1.images).countP (·.success) ∧
        (executeImageGenNode mk items env).1.totalGenerated +
            (executeImageGenNode mk items env).1.totalFailed =
          (executeImageGenNode mk items env).1.images.length ∧
        ((executeImageGenNode mk items env).1.images).map (·.originalPrompt) =
          (items.take 20).map (·.prompt)) ∧
    (∀ (cfg : VideoConfig) (items : List GenItem) (env : VideoEnv),
        (executeVideoGenNode cfg items env).1.clips.length = min 10 items.length ∧
        (executeVideoGenNode cfg items env).1.totalGenerated =
          ((executeVideoGenNode cfg items env).1.clips).countP (·.success) ∧
        (executeVideoGenNode cfg items env).1.totalGenerated +
            (executeVideoGenNode cfg items env).1.totalFailed =
          (executeVideoGenNode cfg items env).1.clips.length ∧
        ((executeVideoGenNode cfg items env).1.clips).map (·.originalPrompt) =
          (items.take 10).map (·.prompt)) := by
  constructor
  · intro mk items env
    refine ⟨?_, ?_, ?_, ?_⟩
    · simp [executeImageGenNode, runImage_length, List.length_take]
    · simp [executeImageGenNode, runImage_countP]
    · simp [executeImageGenNode, runImage_total, runImage_length, List.length_take]
    · simp [executeImageGenNode, runImage_prompts]
  · intro cfg items env
    refine ⟨?_, ?_, ?_, ?_⟩
    · simp [executeVideoGenNode, runVideo_length, List.length_take]
    · simp [executeVideoGenNode, runVideo_countP]
    · simp [executeVideoGenNode, runVideo_total, runVideo_length, List.length_take]
    · simp [executeVideoGenNode, runVideo_prompts]

/-- Claim C2, corrected: the caps (20 image, 10 video) are enforced — exactly
20/10 records come back — but the truncation is *not* reported in the batch
outcome: the outcome of a 25-item image request is identical to that of its
first 20 items, with `totalRequested = 20` (the capped count), and the video
outcome (which has no request-count field) is likewise identical to the
capped run's. -/
theorem c2_counterexample :
    items25.length = 25 ∧
    executeImageGenNode .fluxDev items25 envOkI =
      executeImageGenNode .fluxDev (items25.take 20) envOkI ∧
    (executeImageGenNode .fluxDev items25 envOkI).1.images.length = 20 ∧
    (executeImageGenNode .fluxDev items25 envOkI).1.totalRequested = 20 ∧
    items15.length = 15 ∧
    executeVideoGenNode cfgDefault items15 envOkV =
      executeVideoGenNode cfgDefault (items15.take 10) envOkV ∧
    (executeVideoGenNode cfgDefault items15 envOkV).1.clips.length = 10 := by
  refine ⟨by simp [items25], ?_, ?_, by simp [executeImageGenNode, items25, List.length_take],
    by simp [items15], ?_, ?_⟩
  · simp [executeImageGenNode, List.take_take]
  · simp [executeImageGenNode, runImage_length, List.length_take, items25]
  · simp [executeVideoGenNode, List.take_take]
  · simp [executeVideoGenNode, runVideo_length, List.length_take, items15]

/-- Claim C2, amended: the executors truncate the batch to the hard cap before
any provider call — every provider call in the trace has index under the cap
and exactly `min cap n` records are returned — but the truncation is only
logged, never reported: the whole outcome (including the image
`totalRequested` field, which is set to the *capped* count) is equal to the
outcome of requesting just the first `cap` items. -/
theorem c2_amended :
    (∀ (mk : FluxModel) (items : List GenItem) (env : ImageEnv),
        (executeImageGenNode mk items env).1.images.length = min 20 items.length ∧
        (executeImageGenNode mk items env).1.totalRequested = min 20 items.length ∧
        (∀ j, Event.call j ∈ (executeImageGenNode mk items env).2 →
          j < min 20 items.length) ∧
        executeImageGenNode mk items env = executeImageGenNode mk (items.take 20) env) ∧
    (∀ (cfg : VideoConfig) (items : List GenItem) (env : VideoEnv),
        (executeVideoGenNode cfg items env).1.clips.length = min 10 items.length ∧
        (∀ j, Event.call j ∈ (executeVideoGenNode cfg items env).2 →
          j < min 10 items.length) ∧
        executeVideoGenNode cfg items env = executeVideoGenNode cfg (items.take 10) env) := by
  constructor
  · intro mk items env
    refine ⟨?_, ?_, ?_, ?_⟩
    · simp [executeImageGenNode, runImage_length, List.length_take]
    · simp [executeImageGenNode, List.length_take]
    · intro j hj
      simp only [executeImageGenNode] at hj
      have := runImage_calls mk env (items.take 20).length (items.take 20) 0 j hj
      rw [List.length_take] at this
      omega
    · simp [executeImageGenNode, List.take_take]
  · intro cfg items env
    refine ⟨?_, ?_, ?_⟩
    · simp [executeVideoGenNode, runVideo_length, List.length_take]
    · intro j hj
      simp only [executeVideoGenNode] at hj
      have := runVideo_calls _ _ env (items.take 10).length (items.take 10) 0 j hj
      rw [List.length_take] at this
      omega
    · simp [executeVideoGenNode, List.take_take]

/-- Witness for `c2_amended`: item 0's provider call on a 3-item batch is
below the cap. -/
theorem c2_amended_witness :
    (0 : Nat) < min 20 ([stdItem, stdItem, stdItem] : List GenItem).length :=
  (c2_amended.1 .fluxDev [stdItem, stdItem, stdItem] envOkI).2.2.1 0 (by decide)

lemma execImage_get (mk : FluxModel) (items : List GenItem) (env : ImageEnv) (j : Nat) :
    ((executeImageGenNode mk items env).1.images)[j]? =
      ((items.take 20)[j]?).map (fun it => imageItemResult mk env j it) := by
  have hg := runImage_get mk env (items.take 20).length (items.take 20) 0 j
  simpa [executeImageGenNode] using hg

/-- Claim C3, corrected: a 429 status message does *not* trigger the image
executor's cool-down — its check is the case-sensitive substring
`'rate limit'` only — yet the failure is recorded with the raw message and
the batch continues (both items produce records, the second succeeds). -/
theorem c3_counterexample :
    (executeImageGenNode .fluxDev [stdItem, stdItem] env429).2 =
      [Event.call 0, Event.call 1] ∧
    ((executeImageGenNode .fluxDev [stdItem, stdItem] env429).1.images).map (·.success) =
      [false, true] ∧
    ((executeImageGenNode .fluxDev [stdItem, stdItem] env429).1.images).map (·.error) =
      [some "Request failed with status code 429", none] ∧
    Event.sleep 10000 ∉ (executeImageGenNode .fluxDev [stdItem, stdItem] env429).2 :=
  ⟨rfl, rfl, rfl, by decide⟩

/-- Claim C3, amended: per-item provider failures are recorded as failed
records carrying the raw message and the batch continues; the image
executor's 10 s cool-down fires only for messages containing the
case-sensitive substring `'rate limit'` (when none does, no 10 s sleep ever
occurs; when one does, the sleep sits between the failed call and the next),
and the video executor never performs its 30 s cool-down, because
`generateSingleClip` catches provider errors internally so the executor's
rate-limit branch is unreachable. -/
theorem c3_amended :
    (∀ (mk : FluxModel) (items : List GenItem) (env : ImageEnv) (j : Nat) (msg : String),
        j < min 20 items.length → env.provider j = .error msg →
        ∃ r, ((executeImageGenNode mk items env).1.images)[j]? = some r ∧
          r.success = false ∧ r.error = some msg ∧ r.url = "" ∧ r.localPath = "") ∧
    (∀ (mk : FluxModel) (items : List GenItem) (env : ImageEnv),
        (∀ j msg, env.provider j = .error msg → hasSubS msg "rate limit" = false) →
        Event.sleep 10000 ∉ (executeImageGenNode mk items env).2) ∧
    (∀ (cfg : VideoConfig) (items : List GenItem) (env : VideoEnv),
        Event.sleep 30000 ∉ (executeVideoGenNode cfg items env).2) ∧
    (executeImageGenNode .fluxDev [stdItem, stdItem] envRL).2 =
      [Event.call 0, Event.sleep 10000, Event.call 1] := by
  refine ⟨?_, ?_, ?_, rfl⟩
  · intro mk items env j msg hj hp
    have hlt : j < (items.take 20).length := by
      rw [List.length_take]
      omega
    refine ⟨imageItemResult mk env j ((items.take 20).get ⟨j, hlt⟩), ?_, ?_, ?_, ?_, ?_⟩
    · rw [execImage_get, List.getElem?_eq_getElem hlt]
      rfl
    · simp [imageItemResult, hp]
    · simp [imageItemResult, hp]
    · simp [imageItemResult, hp]
    · simp [imageItemResult, hp]
  · intro mk items env h
    have := runImage_noRL mk env (items.take 20).length h (items.take 20) 0
    simpa [executeImageGenNode] using this
  · intro cfg items env
    have := runVideo_no30000 (cfg.model.getD .minimax) (orNum cfg.duration 5) env
      (items.take 10).length (items.take 10) 0
    simpa [executeVideoGenNode] using this

/-- Witness for `c3_amended`: no 10 s cool-down on an all-success batch. -/
theorem c3_amended_witness :
    Event.sleep 10000 ∉ (executeImageGenNode .fluxDev [stdItem, stdItem] envOkI).2 :=
  c3_amended.2.1 .fluxDev [stdItem, stdItem] envOkI (by
    intro j m h
    simp [envOkI] at h)

/-- Claim C5, confirmed: zero successful clips → no deliverable, status
`"skipped"`; exactly one → that clip passed through unchanged (same url,
local path, duration), status `"success"`, no concatenation; two or more →
status `"success"` with the deliverable's duration the sum of the successful
clips' durations when FFmpeg resolves, and on an FFmpeg error status
`"failed"` with no deliverable while the individual clip records are exactly
those of a run with a succeeding FFmpeg step. -/
theorem c5_clip_assembler :
    ∀ (cfg : VideoConfig) (items : List GenItem) (env : VideoEnv),
      ((executeVideoGenNode cfg items env).1.totalGenerated = 0 →
        (executeVideoGenNode cfg items env).1.finalVideo = none ∧
        (executeVideoGenNode cfg items env).1.stitchingStatus = "skipped") ∧
      ((executeVideoGenNode cfg items env).1.totalGenerated = 1 →
        ∃ c, ((executeVideoGenNode cfg items env).1.clips).filter (·.success) = [c] ∧
          (executeVideoGenNode cfg items env).1.stitchingStatus = "success" ∧
          (executeVideoGenNode cfg items env).1.finalVideo =
            some ⟨c.url, c.localPath, c.duration, "mp4"⟩) ∧
      (2 ≤ (executeVideoGenNode cfg items env).1.totalGenerated →
        (env.ffmpeg = .ok () →
          (executeVideoGenNode cfg items env).1.stitchingStatus = "success" ∧
          ∃ fv, (executeVideoGenNode cfg items env).1.finalVideo = some fv ∧
            fv.duration =
              ((((executeVideoGenNode cfg items env).1.clips).filter (·.success)).map
                (·.duration)).sum) ∧
        (∀ e, env.ffmpeg = .error e →
          (executeVideoGenNode cfg items env).1.stitchingStatus = "failed" ∧
          (executeVideoGenNode cfg items env).1.finalVideo = none ∧
          (executeVideoGenNode cfg items env).1.clips =
            (executeVideoGenNode cfg items { env with ffmpeg := .ok () }).1.clips)) := by
  intro cfg items env
  simp only [executeVideoGenNode]
  set vm := cfg.model.getD VideoModel.minimax with hvm
  set dur := orNum cfg.duration 5 with hdur
  set toGen := items.take 10 with htg
  set run := runVideoItems vm dur env toGen.length toGen 0 with hrunEq
  have hlp : ∀ c ∈ run.1, c.success = true → c.localPath ≠ "" := by
    intro c hc hs
    rcases runVideo_shape vm dur env toGen.length toGen 0 c hc with h | h
    · exact h.2.2.1
    · rw [h.1] at hs
      cases hs
  have hsc : run.2.1 = (run.1).countP (·.success) :=
    runVideo_countP vm dur env toGen.length toGen 0
  refine ⟨?_, ?_, ?_⟩
  · intro h0
    simp [videoStitchStep, h0]
  · intro h1
    have hcp : (run.1).countP (·.success) = 1 := by rw [← hsc]; exact h1
    have hflen : ((run.1).filter (·.success)).length = 1 := by
      rw [← List.countP_eq_length_filter]
      exact hcp
    obtain ⟨c, hc⟩ := List.length_eq_one.mp hflen
    have hst := stitch_one run.1 env hlp c hc
    exact ⟨c, hc, by simp [videoStitchStep, h1, hst], by simp [videoStitchStep, h1, hst]⟩
  · intro h2
    have hpos : 0 < run.2.1 := by omega
    have hflen : 2 ≤ ((run.1).filter (·.success)).length := by
      rw [← List.countP_eq_length_filter, ← hsc]
      exact h2
    constructor
    · intro hff
      rcases hfl : (run.1).filter (·.success) with _ | ⟨c1, _ | ⟨c2, rest⟩⟩
      · rw [hfl] at hflen
        simp at hflen
      · rw [hfl] at hflen
        simp at hflen
      · obtain ⟨fv, hstv, hdurv⟩ := stitch_many_ok run.1 env hlp c1 c2 rest hfl hff
        exact ⟨by simp [videoStitchStep, hpos, hstv],
          fv, by simp [videoStitchStep, hpos, hstv], hdurv⟩
    · intro e hff
      rcases hfl : (run.1).filter (·.success) with _ | ⟨c1, _ | ⟨c2, rest⟩⟩
      · rw [hfl] at hflen
        simp at hflen
      · rw [hfl] at hflen
        simp at hflen
      · have hste := stitch_many_err run.1 env hlp c1 c2 rest hfl e hff
        refine ⟨by simp [videoStitchStep, hpos, hste], by simp [videoStitchStep, hpos, hste], ?_⟩
        rw [hrunEq, htg]
        rw [runVideo_ffmpegIndep vm dur env (.ok ()) (items.take 10).length (items.take 10) 0]

/-- Witness for `c5_clip_assembler`: a two-success run with a succeeding
FFmpeg step assembles with status `"success"`. -/
theorem c5_witness :
    (executeVideoGenNode cfgDefault [stdItem, stdItem] envOkV).1.stitchingStatus =
      "success" :=
  (((c5_clip_assembler cfgDefault [stdItem, stdItem] envOkV).2.2 (by decide)).1 rfl).1

lemma roundHalfUp_eq (q : ℚ) (n : ℤ) (h1 : (n : ℚ) ≤ q + 1 / 2)
    (h2 : q + 1 / 2 < n + 1) : roundHalfUp q = n :=
  Int.floor_eq_iff.mpr ⟨h1, h2⟩

lemma toFixed_of_round (d : Nat) (q : ℚ) (n : ℤ)
    (h : roundHalfUp (q * (10 : ℚ) ^ d) = n) :
    toFixed d q =
      toString (n / ((10 : ℤ) ^ d)) ++ "." ++
        padZeros (toString ((n % ((10 : ℤ) ^ d)).toNat)) d := by
  simp only [toFixed]
  rw [h]

lemma toFixed_five_minimax :
    toFixed 2 ((5 : ℚ) * costPerSecondOf .minimax) = "0.13" := by
  rw [toFixed_of_round 2 _ 13 (roundHalfUp_eq _ 13
    (by norm_num [costPerSecondOf]) (by norm_num [costPerSecondOf]))]
  rfl

lemma toFixed_total_minimax :
    toFixed 2 (([(5 : ℚ), 5]).sum * costPerSecondOf .minimax) = "0.25" := by
  rw [toFixed_of_round 2 _ 25 (roundHalfUp_eq _ 25
    (by norm_num [costPerSecondOf]) (by norm_num [costPerSecondOf]))]
  rfl

/-- Claim C6, corrected: for video the aggregate cost is rounded once on the
summed duration, which differs from the sum of the per-clip rounded costs:
two successful 5 s minimax clips each report `"$0.13"` (0.125 rounded to 2
decimals) while the batch total is `"$0.25"`, not the `"$0.26"` that the sum
of the individual costs would give under identical rounding. -/
theorem c6_counterexample :
    ((executeVideoGenNode cfgDefault [stdItem, stdItem] envOkV).1.clips).map
        (·.estimatedCost) = ["$0.13", "$0.13"] ∧
    (executeVideoGenNode cfgDefault [stdItem, stdItem] envOkV).1.estimatedTotalCost =
      "$0.25" ∧
    rnd 2 ((5 : ℚ) * costPerSecondOf .minimax) +
        rnd 2 ((5 : ℚ) * costPerSecondOf .minimax) = 26 / 100 ∧
    "$" ++ toFixed 2 ((26 : ℚ) / 100) = "$0.26" ∧
    ("$0.25" : String) ≠ "$0.26" := by
  refine ⟨?_, ?_, ?_, ?_, by decide⟩
  · have h : ((executeVideoGenNode cfgDefault [stdItem, stdItem] envOkV).1.clips).map
        (·.estimatedCost) =
        ["$" ++ toFixed 2 ((5 : ℚ) * costPerSecondOf .minimax),
         "$" ++ toFixed 2 ((5 : ℚ) * costPerSecondOf .minimax)] := rfl
    rw [h, toFixed_five_minimax]
    rfl
  · have h : (executeVideoGenNode cfgDefault [stdItem, stdItem] envOkV).1.estimatedTotalCost =
        "$" ++ toFixed 2 (([(5 : ℚ), 5]).sum * costPerSecondOf .minimax) := rfl
    rw [h, toFixed_total_minimax]
    rfl
  · have h13 := roundHalfUp_eq ((5 : ℚ) * costPerSecondOf .minimax * (10 : ℚ) ^ 2) 13
      (by norm_num [costPerSecondOf]) (by norm_num [costPerSecondOf])
    simp only [rnd, h13]
    norm_num
  · rw [toFixed_of_round 2 _ 26 (roundHalfUp_eq _ 26 (by norm_num) (by norm_num))]
    rfl

/-- Claim C6, amended: the image batch total is
`(successCount × costPerImage).toFixed(4)` and — since every registry cost is
exact at 4 decimals — this equals the sum of the successful items' individual
rounded costs (the rounding commutes with the multiplication), with failed
items contributing the zero cost `"$0.0000"`; the video batch total is
`(Σ successful durations × costPerSecond).toFixed(2)` with failed clips
contributing `"$0.00"`, the rounding being applied once to the aggregate. -/
theorem c6_amended :
    (∀ (mk : FluxModel) (items : List GenItem) (env : ImageEnv),
        (executeImageGenNode mk items env).1.estimatedTotalCost =
          "$" ++ toFixed 4
            (((executeImageGenNode mk items env).1.totalGenerated : ℚ) * costPerImage mk) ∧
        (∀ r ∈ (executeImageGenNode mk items env).1.images, r.success = true →
            r.estimatedCost = "$" ++ toFixed 4 (costPerImage mk)) ∧
        (∀ r ∈ (executeImageGenNode mk items env).1.images, r.success = false →
            r.estimatedCost = "$0.0000") ∧
        rnd 4 (((executeImageGenNode mk items env).1.totalGenerated : ℚ) * costPerImage mk) =
          ((executeImageGenNode mk items env).1.totalGenerated : ℚ) *
            rnd 4 (costPerImage mk)) ∧
    (∀ (cfg : VideoConfig) (items : List GenItem) (env : VideoEnv),
        (executeVideoGenNode cfg items env).1.estimatedTotalCost =
          "$" ++ toFixed 2
            (((((executeVideoGenNode cfg items env).1.clips).filter (·.success)).map
                (·.duration)).sum * costPerSecondOf (cfg.model.getD .minimax)) ∧
        (∀ c ∈ (executeVideoGenNode cfg items env).1.clips, c.success = false →
            c.estimatedCost = "$0.00")) := by
  constructor
  · intro mk items env
    refine ⟨rfl, ?_, ?_, rnd4_mul_cost _ mk⟩
    · intro r hr hs
      simp only [executeImageGenNode] at hr
      rcases runImage_shape mk env (items.take 20).length (items.take 20) 0 r hr with h | h
      · exact h.2.2.2.2
      · rw [h.1] at hs
        cases hs
    · intro r hr hs
      simp only [executeImageGenNode] at hr
      rcases runImage_shape mk env (items.take 20).length (items.take 20) 0 r hr with h | h
      · rw [h.1] at hs
        cases hs
      · exact h.2.2.2.1
  · intro cfg items env
    refine ⟨rfl, ?_⟩
    intro c hc hs
    simp only [executeVideoGenNode] at hc
    rcases runVideo_shape (cfg.model.getD .minimax) (orNum cfg.duration 5) env
      (items.take 10).length (items.take 10) 0 c hc with h | h
    · rw [h.1] at hs
      cases hs
    · exact h.2.2.2.2.1

/-- Witness for `c6_amended`: the per-item cost string of a successful image
record. -/
theorem c6_amended_witness :
    (imageItemResult .fluxDev envOkI 0 stdItem).estimatedCost =
      "$" ++ toFixed 4 (costPerImage .fluxDev) :=
  (c6_amended.1 .fluxDev [stdItem] envOkI).2.1
    (imageItemResult .fluxDev envOkI 0 stdItem)
    (by
      rw [show (executeImageGenNode .fluxDev [stdItem] envOkI).1.images =
        [imageItemResult .fluxDev envOkI 0 stdItem] from rfl]
      exact List.mem_singleton_self _)
    (by rfl)

/-- Claim C8, confirmed, under the assumption that the provider's error
messages are non-empty: every record of either executor is fully successful
(success, non-empty url and local path, no error field) or fully failed
(no success, empty url and local path, an error message that is non-empty
when the provider's messages are). -/
theorem c8_media_result :
    (∀ (mk : FluxModel) (items : List GenItem) (env : ImageEnv),
        (∀ j m, env.provider j = .error m → m ≠ "") →
        ∀ r ∈ (executeImageGenNode mk items env).1.images,
          (r.success = true ∧ r.url ≠ "" ∧ r.localPath ≠ "" ∧ r.error = none) ∨
          (r.success = false ∧ r.url = "" ∧ r.localPath = "" ∧
            ∃ m, r.error = some m ∧ m ≠ "")) ∧
    (∀ (cfg : VideoConfig) (items : List GenItem) (env : VideoEnv),
        (∀ j m, env.provider j = .error m → m ≠ "") →
        ∀ c ∈ (executeVideoGenNode cfg items env).1.clips,
          (c.success = true ∧ c.url ≠ "" ∧ c.localPath ≠ "" ∧ c.error = none) ∨
          (c.success = false ∧ c.url = "" ∧ c.localPath = "" ∧
            ∃ m, c.error = some m ∧ m ≠ "")) := by
  constructor
  · intro mk items env hmsg r hr
    simp only [executeImageGenNode] at hr
    rcases runImage_shape mk env (items.take 20).length (items.take 20) 0 r hr with h | h
    · exact Or.inl ⟨h.1, h.2.1, h.2.2.1, h.2.2.2.1⟩
    · obtain ⟨j, m, hp, he⟩ := h.2.2.2.2
      exact Or.inr ⟨h.1, h.2.1, h.2.2.1, m, he, hmsg j m hp⟩
  · intro cfg items env hmsg c hc
    simp only [executeVideoGenNode] at hc
    rcases runVideo_shape (cfg.model.getD .minimax) (orNum cfg.duration 5) env
      (items.take 10).length (items.take 10) 0 c hc with h | h
    · exact Or.inl ⟨h.1, h.2.1, h.2.2.1, h.2.2.2.1⟩
    · obtain ⟨j, m, hp, he⟩ := h.2.2.2.2.2
      exact Or.inr ⟨h.1, h.2.1, h.2.2.1, m, he, hmsg j m hp⟩

/-- Witness for `c8_media_result` at a concrete successful video clip. -/
theorem c8_witness :
    ((videoItemClip .minimax 5 envOkV 0 stdItem).success = true ∧
      (videoItemClip .minimax 5 envOkV 0 stdItem).url ≠ "" ∧
      (videoItemClip .minimax 5 envOkV 0 stdItem).localPath ≠ "" ∧
      (videoItemClip .minimax 5 envOkV 0 stdItem).error = none) ∨
    ((videoItemClip .minimax 5 envOkV 0 stdItem).success = false ∧
      (videoItemClip .minimax 5 envOkV 0 stdItem).url = "" ∧
      (videoItemClip .minimax 5 envOkV 0 stdItem).localPath = "" ∧
      ∃ m, (videoItemClip .minimax 5 envOkV 0 stdItem).error = some m ∧ m ≠ "") :=
  c8_media_result.2 cfgDefault [stdItem] envOkV
    (by
      intro j m h
      simp [envOkV] at h)
    (videoItemClip .minimax 5 envOkV 0 stdItem)
    (by
      rw [show (executeVideoGenNode cfgDefault [stdItem] envOkV).1.clips =
        [videoItemClip .minimax 5 envOkV 0 stdItem] from rfl]
      exact List.mem_singleton_self _)
